import Mathlib

/-!
Shape and type inference of the pooling operator, the memory descriptor of the MKL backend,
and the creation of the pooling and activation operators.

A shallow embedding of `PoolingProp::InferShape` and `PoolingProp::InferType`
(`src/operator/pooling-inl.h`), of the member functions of `MKLMemoryDescriptorBase` and
`MKLMemoryDescriptor` (`src/operator/mkl/mkl_memory.cc`), of the two `CreateOp<cpu>` functions
(`src/operator/pooling.cc`, `src/operator/activation.cc`) and of the set-up of `MKLReluOp`
(`src/operator/mkl/mkl_relu-inl.h`), together with the properties checked against them.

* A `TShape` is the list of its extents; `ndim()` is the length of the list.
* Extents are 32-bit unsigned machine integers: they are natural numbers here and every
  addition, multiplication and subtraction is reduced modulo `2 ^ 32` explicitly.
* A failed `CHECK` or a `LOG(FATAL)` ends the call with `Failure.fatal`; an operation whose
  behaviour C++ leaves undefined ends it with `Failure.undefinedBehaviour`.
* The backend library is an argument of the functions that call it; a function that changes
  an object or the state of the backend returns the new values.
-/

namespace mxnet
namespace op

/-! ## Machine integers -/

/-- Modelled from the spec: the extent type `index_t` of `TShape` is declared in mshadow, outside
the listed sources; it is the 32-bit unsigned integer, so arithmetic on extents is taken modulo
this number, `2 ^ 32`. -/
def indexMod : Nat := 4294967296

/-- Reduction of a natural number to the range of `index_t`. -/
def wrap (x : Nat) : Nat := x % indexMod

/-- Unsigned 32-bit addition. -/
def uadd (a b : Nat) : Nat := wrap (a + b)

/-- Unsigned 32-bit multiplication. -/
def umul (a b : Nat) : Nat := wrap (a * b)

/-- Unsigned 32-bit subtraction: the difference wraps around below zero. -/
def usub (a b : Nat) : Nat := wrap (wrap a + indexMod - wrap b)

/-- Largest value of the C++ type `int` (32 bits, two's complement). -/
def intMax : Nat := 2147483647

/-! ## Outcomes -/

deriving instance DecidableEq for Except

/-- The checks that end a call with a fatal error. -/
inductive Check where
  /-- The check `CHECK_EQ(in_shape->size(), 1)` of `InferShape`. -/
  | inShapeSize
  /-- The check `CHECK_GE(dshape.ndim(), 4)`: "Input data should be 4D ... Or 5D ...". -/
  | ndimAtLeast4
  /-- The check `CHECK_EQ(dshape.ndim(), 4)` of the 2-D kernel branch. -/
  | ndimIs4
  /-- The check `CHECK_EQ(dshape.ndim(), 5)` of the 3-D kernel branch. -/
  | ndimIs5
  /-- The check with the message "kernel size exceed input". -/
  | kernelSizeExceedInput
  /-- The check `CHECK_EQ(in_type->size(), 1)` of `InferType`. -/
  | inTypeSize
  /-- The `LOG(FATAL)` with the message "Input type to pooling is not specified.". -/
  | inputTypeNotSpecified
  /-- A check `CHECK_EQ(status, E_SUCCESS)` or `CHECK_EQ(status, 0)` on the status of a backend
  call. -/
  | dnnStatus
  /-- The check `CHECK(layout_usr)` of `create_conversions`. -/
  | layoutUsrIsNull
  /-- The check `CHECK(cpu_ptr)` of `convert_from_prv` and `convert_to_prv`. -/
  | cpuPtrIsNull
  /-- The checks `CHECK(this->convert_from_int)` and `CHECK(this->convert_to_int)`. -/
  | conversionIsNull
  /-- The check `CHECK_EQ(other->get_descr_type(), PrvMemDescr::PRV_DESCR_MKL2017)`. -/
  | descrType
  /-- The `LOG(FATAL)` of `MSHADOW_REAL_TYPE_SWITCH` for a type that is not a real type. -/
  | notRealType
  /-- The `LOG(FATAL)` with the message "unknown pooling type". -/
  | unknownPoolingType
  /-- The `LOG(FATAL)` with the message "unknown activation type". -/
  | unknownActivationType
  /-- The check `CHECK_EQ(in_data.size(), 1)` of `MKLReluOp::Forward`. -/
  | inDataSize
  /-- The check `CHECK_EQ(out_data.size(), 1)` of `MKLReluOp::Forward`. -/
  | outDataSize
  deriving DecidableEq, Repr

/-- How a call ends when it does not return. -/
inductive Failure where
  /-- A failed `CHECK` or a `LOG(FATAL)`: dmlc raises an error. -/
  | fatal (c : Check)
  /-- The call performed an operation C++ gives no meaning to: an unchecked `TShape` read past
  `ndim()`, an integer division by zero, or a float to `int` conversion out of range. -/
  | undefinedBehaviour
  deriving DecidableEq, Repr

/-! ## Shapes and parameters -/

/-- A tensor shape: the list of its extents. -/
abbrev TShape := List Nat

/-- The unchecked element read `s[i]` of a `TShape`. -/
def index (s : TShape) (i : Nat) : Except Failure Nat :=
  match s[i]? with
  | some v => .ok v
  | none => .error .undefinedBehaviour

namespace pool_enum

/-- Value of `pool_enum::kMaxPooling`. -/
def kMaxPooling : Int := 0
/-- Value of `pool_enum::kAvgPooling`. -/
def kAvgPooling : Int := 1
/-- Value of `pool_enum::kSumPooling`. -/
def kSumPooling : Int := 2
/-- Value of `pool_enum::kValid`. -/
def kValid : Int := 0
/-- Value of `pool_enum::kFull`. -/
def kFull : Int := 1

end pool_enum

/-- The parameters of the pooling operator (`struct PoolingParam`); the two enumerations are
stored in `int` fields, as in the source. -/
structure PoolingParam where
  kernel : TShape
  stride : TShape
  pad : TShape
  pool_type : Int
  pooling_convention : Int
  global_pool : Bool
  deriving DecidableEq, Repr

/-! ## Single-precision arithmetic of the `full` convention -/

/-- A non-negative finite binary32 value `mant * 2 ^ exp`. -/
structure F32 where
  mant : Nat
  exp : Int
  deriving DecidableEq, Repr

/-- Halving count behind `ilog2`: the first argument bounds the number of halvings. -/
def ilog2Aux : Nat → Nat → Nat
  | 0, _ => 0
  | fuel + 1, n => if n < 2 then 0 else ilog2Aux fuel (n / 2) + 1

/-- Position of the leading binary digit of `n`, the integer part of its base-2 logarithm
(`0` for `n = 0`); `n` halvings are always enough. -/
def ilog2 (n : Nat) : Nat := ilog2Aux n n

/-- The conversion `static_cast<float>(n)` of an unsigned integer: `n` rounded to 24
significant bits, ties to even. The result is again an integer and is given by its value. -/
def castFloat (n : Nat) : Nat :=
  if n < 16777216 then n
  else
    let sh := ilog2 n - 23
    let m0 := n / 2 ^ sh
    let r := n % 2 ^ sh
    let m := if 2 ^ sh < 2 * r ∨ (2 * r = 2 ^ sh ∧ m0 % 2 = 1) then m0 + 1 else m0
    m * 2 ^ sh

/-- The binary exponent `e` of the quotient of two positive integers,
`2 ^ e ≤ a / b < 2 ^ (e + 1)`: the difference of the leading-digit positions, or one less. -/
def quotientExponent (a b : Nat) : Int :=
  let e0 : Int := (ilog2 a : Int) - (ilog2 b : Int)
  if a * 2 ^ (-e0).toNat < b * 2 ^ e0.toNat then e0 - 1 else e0

/-- The quotient `a / b` rounded to the nearest multiple of `2 ^ (e - 23)`, ties to even: for
the binary exponent `e` of the quotient this is rounding to 24 significant bits. -/
def roundQuotient (a b : Nat) (e : Int) : F32 :=
  let sh : Int := 23 - e
  let num := a * 2 ^ sh.toNat
  let den := b * 2 ^ (-sh).toNat
  let m0 := num / den
  let r := num % den
  let m := if den < 2 * r ∨ (2 * r = den ∧ m0 % 2 = 1) then m0 + 1 else m0
  ⟨m, e - 23⟩

/-- The single-precision quotient `a / b` of two integer-valued floats, `b` non-zero: the exact
quotient rounded to 24 significant bits, ties to even. Every quotient of two positive values
below `2 ^ 33` lies in the normal range of binary32, so exponent limits play no part. -/
def fdiv (a b : Nat) : F32 :=
  if a = 0 then ⟨0, 0⟩ else roundQuotient a b (quotientExponent a b)

/-- The function `ceil` on a non-negative float; the result is an integer, given by its value. -/
def fceil (x : F32) : Nat :=
  if 0 ≤ x.exp then x.mant * 2 ^ x.exp.toNat
  else (x.mant + 2 ^ (-x.exp).toNat - 1) / 2 ^ (-x.exp).toNat

/-! ## Output extents -/

/-- The padded extent `dshape[i] + 2 * param_.pad[j]` in unsigned arithmetic. -/
def paddedExtent (d p : Nat) : Nat := uadd d (umul 2 p)

/-- The right-hand side of the `kValid` branch:
`1 + (dshape[i] + 2 * param_.pad[j] - param_.kernel[j]) / param_.stride[j]`. -/
def validExtent (d p k s : Nat) : Except Failure Nat :=
  if s = 0 then .error .undefinedBehaviour
  else .ok (uadd 1 (usub (paddedExtent d p) k / s))

/-- The right-hand side of the other branch:
`1 + static_cast<int>(ceil(static_cast<float>(dshape[i] + 2 * param_.pad[j] - param_.kernel[j])
/ param_.stride[j]))`; the stride is converted to `float` for the division, the sum is an `int`
and is converted back to `index_t` by the assignment. Arithmetic is IEEE binary32 with
round-to-nearest-even. -/
def fullExtent (d p k s : Nat) : Except Failure Nat :=
  if s = 0 then .error .undefinedBehaviour
  else
    let c := fceil (fdiv (castFloat (usub (paddedExtent d p) k)) (castFloat s))
    -- `static_cast<int>` needs `c ≤ intMax` and the signed sum needs `1 + c ≤ intMax`
    if intMax < 1 + c then .error .undefinedBehaviour
    else .ok (wrap (1 + c))

/-- One conjunct `param_.kernel[j] <= dshape[i] + 2 * param_.pad[j]` of a kernel check. -/
def kernelFits (param_ : PoolingParam) (dshape : TShape) (i j : Nat) : Except Failure Bool := do
  let k ← index param_.kernel j
  let d ← index dshape i
  let p ← index param_.pad j
  pure (decide (k ≤ paddedExtent d p))

/-- The first conjunct of the 3-D kernel check, written with `<` in the source:
`param_.kernel[0] < dshape[2] + 2 * param_.pad[0]`. -/
def kernelFitsStrict (param_ : PoolingParam) (dshape : TShape) (i j : Nat) :
    Except Failure Bool := do
  let k ← index param_.kernel j
  let d ← index dshape i
  let p ← index param_.pad j
  pure (decide (k < paddedExtent d p))

/-- The short-circuit conjunction `&&`: the right operand is evaluated only if the left one
is true. -/
def andThen (a b : Except Failure Bool) : Except Failure Bool := do
  if ← a then b else pure false

/-- The assignment `oshape[i] = 1 + (...) / param_.stride[j]` of the `kValid` branch. -/
def setValid (param_ : PoolingParam) (dshape oshape : TShape) (i j : Nat) :
    Except Failure TShape := do
  let d ← index dshape i
  let p ← index param_.pad j
  let k ← index param_.kernel j
  let s ← index param_.stride j
  let v ← validExtent d p k s
  pure (oshape.set i v)

/-- The assignment `oshape[i] = 1 + static_cast<int>(ceil(...))` of the other branch. -/
def setFull (param_ : PoolingParam) (dshape oshape : TShape) (i j : Nat) :
    Except Failure TShape := do
  let d ← index dshape i
  let p ← index param_.pad j
  let k ← index param_.kernel j
  let s ← index param_.stride j
  let v ← fullExtent d p k s
  pure (oshape.set i v)

/-! ## The inference functions -/

/-- The method `PoolingProp::InferShape`. The result is the returned flag together with the
contents of `*out_shape` after the call; `*in_shape` and `*aux_shape` are never written. -/
def InferShape (param_ : PoolingParam) (in_shape out_shape : List TShape) :
    Except Failure (Bool × List TShape) :=
  match in_shape with
  | [dshape] =>
    if dshape.length < 4 then .error (.fatal .ndimAtLeast4)
    else
      let oshape : TShape := dshape
      if dshape.length = 0 then .ok (false, out_shape)
      else if param_.kernel.length = 2 then
        if dshape.length ≠ 4 then .error (.fatal .ndimIs4)
        else if param_.global_pool then
          .ok (true, [(oshape.set 2 1).set 3 1])
        else do
          let fits ← andThen (kernelFits param_ dshape 2 0) (kernelFits param_ dshape 3 1)
          if !fits then throw (.fatal .kernelSizeExceedInput)
          if param_.pooling_convention = pool_enum.kValid then
            let oshape ← setValid param_ dshape oshape 2 0
            let oshape ← setValid param_ dshape oshape 3 1
            pure (true, [oshape])
          else
            let oshape ← setFull param_ dshape oshape 2 0
            let oshape ← setFull param_ dshape oshape 3 1
            pure (true, [oshape])
      else if param_.kernel.length = 3 then
        if dshape.length ≠ 5 then .error (.fatal .ndimIs5)
        else do
          let fits ← andThen (kernelFitsStrict param_ dshape 2 0)
            (andThen (kernelFits param_ dshape 3 1) (kernelFits param_ dshape 4 2))
          if !fits then throw (.fatal .kernelSizeExceedInput)
          if param_.global_pool then
            pure (true, [((oshape.set 2 1).set 3 1).set 4 1])
          else if param_.pool_type = pool_enum.kValid then
            let oshape ← setValid param_ dshape oshape 2 0
            let oshape ← setValid param_ dshape oshape 3 1
            let oshape ← setValid param_ dshape oshape 4 2
            pure (true, [oshape])
          else
            let oshape ← setFull param_ dshape oshape 2 0
            let oshape ← setFull param_ dshape oshape 3 1
            let oshape ← setFull param_ dshape oshape 4 2
            pure (true, [oshape])
      else .ok (true, out_shape)
  | _ => .error (.fatal .inShapeSize)

/-- The method `PoolingProp::InferType`. The result is the returned flag together with the
contents of `*in_type` and of `*out_type` after the call. -/
def InferType (in_type _out_type : List Int) : Except Failure (Bool × List Int × List Int) :=
  match in_type with
  | [dtype] =>
    if dtype = -1 then .error (.fatal .inputTypeNotSpecified)
    else .ok (true, in_type, [dtype])
  | _ => .error (.fatal .inTypeSize)

end op

/-! ## The backend library -/

/-- Value of the status code `E_SUCCESS` of the backend library. -/
def E_SUCCESS : Int := 0

/-- The functions of the backend library (the DNN primitives of Intel MKL 2017) called by
`mkl_memory.cc`. The library is outside the sources, so the member functions below take it as an
argument and work with every backend. `σ` is the state of the library. A handle or a pointer is
`none` when it is null. A function of the library that stores a handle through its first
argument gives the stored value next to its status. -/
structure Backend (σ : Type) where
  /-- The call `dnnLayoutCreate(&layout, dimension, size, strides)`. -/
  dnnLayoutCreate : Nat → List Nat → List Nat → σ → Int × Option Nat × σ
  /-- The call `dnnLayoutCreateFromPrimitive(&layout, primitive, type)`. -/
  dnnLayoutCreateFromPrimitive : Option Nat → Nat → σ → Int × Option Nat × σ
  /-- The call `dnnLayoutCompare(l1, l2)`: whether the two layouts are equal. -/
  dnnLayoutCompare : Option Nat → Option Nat → σ → Bool
  /-- The call `dnnLayoutDelete(layout)`. -/
  dnnLayoutDelete : Option Nat → σ → Int × σ
  /-- The call `dnnConversionCreate(&conversion, from, to)`. -/
  dnnConversionCreate : Option Nat → Option Nat → σ → Int × Option Nat × σ
  /-- The call `dnnExecute(primitive, resources)` with the two entries `dnnResourceFrom` and
  `dnnResourceTo` of `resources`. -/
  dnnExecute : Option Nat → Option Nat → Option Nat → σ → Int × σ
  /-- The call `dnnDelete(primitive)`. -/
  dnnDelete : Option Nat → σ → Int × σ
  /-- The call `dnnAllocateBuffer(&ptr, layout)`. -/
  dnnAllocateBuffer : Option Nat → σ → Int × Option Nat × σ

/-- A check `CHECK_EQ(status, E_SUCCESS)`, or `CHECK_EQ(status, 0)`, on the status of a backend
call. -/
def checkStatus (status : Int) : Except op.Failure Unit :=
  if status = E_SUCCESS then .ok () else .error (.fatal .dnnStatus)

/-- A backend that also keeps the statuses it has reported, the latest first. -/
def Backend.logged {σ : Type} (B : Backend σ) : Backend (σ × List Int) where
  dnnLayoutCreate := fun dimension size strides s =>
    let r := B.dnnLayoutCreate dimension size strides s.1
    (r.1, r.2.1, r.2.2, r.1 :: s.2)
  dnnLayoutCreateFromPrimitive := fun primitive type s =>
    let r := B.dnnLayoutCreateFromPrimitive primitive type s.1
    (r.1, r.2.1, r.2.2, r.1 :: s.2)
  dnnLayoutCompare := fun l1 l2 s => B.dnnLayoutCompare l1 l2 s.1
  dnnLayoutDelete := fun layout s =>
    let r := B.dnnLayoutDelete layout s.1
    (r.1, r.2, r.1 :: s.2)
  dnnConversionCreate := fun l1 l2 s =>
    let r := B.dnnConversionCreate l1 l2 s.1
    (r.1, r.2.1, r.2.2, r.1 :: s.2)
  dnnExecute := fun primitive r1 r2 s =>
    let r := B.dnnExecute primitive r1 r2 s.1
    (r.1, r.2, r.1 :: s.2)
  dnnDelete := fun primitive s =>
    let r := B.dnnDelete primitive s.1
    (r.1, r.2, r.1 :: s.2)
  dnnAllocateBuffer := fun layout s =>
    let r := B.dnnAllocateBuffer layout s.1
    (r.1, r.2.1, r.2.2, r.1 :: s.2)

/-! ## The memory descriptor -/

/-- Modelled from the spec: the class `MKLMemoryDescriptorBase` is declared in
`mkl_memory-inl.h`, outside the listed sources. These are the members that the functions of
`mkl_memory.cc` read and write: the portable ("user") and the accelerated ("internal") layout,
the two conversion primitives, and the accelerated buffer `internal_ptr` of the derived class
`MKLMemoryDescriptor`. -/
structure MKLMemoryDescriptorBase where
  layout_usr : Option Nat
  layout_int : Option Nat
  convert_to_int : Option Nat
  convert_from_int : Option Nat
  internal_ptr : Option Nat
  deriving DecidableEq, Repr

/-- The derived class `MKLMemoryDescriptor`; it adds no member that `mkl_memory.cc` uses beyond
the ones listed in `MKLMemoryDescriptorBase`. -/
abbrev MKLMemoryDescriptor := MKLMemoryDescriptorBase

/-- Modelled from the spec: a descriptor as its constructor leaves it, with no layout, no
conversion primitive and no accelerated buffer. -/
def MKLMemoryDescriptorBase.fresh : MKLMemoryDescriptorBase := ⟨none, none, none, none, none⟩

/-- Modelled from the spec: the kinds of descriptor told apart by `get_descr_type()`. -/
inductive PrvDescrType where
  | PRV_DESCR_MKL2017
  | PRV_DESCR_MKLDNN
  deriving DecidableEq, Repr

/-- A `std::shared_ptr<PrvMemDescr>`: the kind reported by `get_descr_type()` and the object
as `std::static_pointer_cast<MKLMemoryDescriptorBase<Dtype>>` sees it. -/
structure PrvMemDescr where
  get_descr_type : PrvDescrType
  descr : MKLMemoryDescriptorBase
  deriving DecidableEq, Repr

namespace MKLMemoryDescriptorBase

/-- Modelled from the spec: the virtual member `prv_ptr()`, the accelerated buffer. -/
def prv_ptr (this : MKLMemoryDescriptorBase) : Option Nat := this.internal_ptr

/-- Modelled from the spec: the member `allocate()` of `mkl_memory-inl.h` allocates the
accelerated buffer, unless there is one already. -/
def allocate {σ : Type} (B : Backend σ) (this : MKLMemoryDescriptorBase) (s : σ) :
    Except op.Failure (MKLMemoryDescriptorBase × σ) :=
  if this.internal_ptr = none then do
    let r := B.dnnAllocateBuffer this.layout_int s
    checkStatus r.1
    pure ({ this with internal_ptr := r.2.1 }, r.2.2)
  else .ok (this, s)

/-- The member function `create_conversions` (lines 31-56). -/
def create_conversions {σ : Type} (B : Backend σ) (this : MKLMemoryDescriptorBase) (s : σ) :
    Except op.Failure (MKLMemoryDescriptorBase × σ) := do
  let s ← (if this.convert_from_int ≠ none then do
      let r := B.dnnDelete this.convert_from_int s
      checkStatus r.1
      pure r.2
    else pure s)
  let s ← (if this.convert_to_int ≠ none then do
      let r := B.dnnDelete this.convert_to_int s
      checkStatus r.1
      pure r.2
    else pure s)
  if this.layout_int ≠ none ∧ B.dnnLayoutCompare this.layout_usr this.layout_int s = false then do
    if this.layout_usr = none then throw (.fatal .layoutUsrIsNull)
    let r := B.dnnConversionCreate this.layout_usr this.layout_int s
    checkStatus r.1
    let this := { this with convert_to_int := r.2.1 }
    let r := B.dnnConversionCreate this.layout_int this.layout_usr r.2.2
    checkStatus r.1
    pure ({ this with convert_from_int := r.2.1 }, r.2.2)
  else pure (this, s)

/-- The member function `create_internal_layout` (lines 58-74). -/
def create_internal_layout {σ : Type} (B : Backend σ) (this : MKLMemoryDescriptorBase)
    (primitive : Option Nat) (type : Nat) (s : σ) :
    Except op.Failure (MKLMemoryDescriptorBase × σ) := do
  let s ← (if this.layout_int ≠ none then do
      let r := B.dnnLayoutDelete this.layout_int s
      checkStatus r.1
      pure r.2
    else pure s)
  let r := B.dnnLayoutCreateFromPrimitive primitive type s
  checkStatus r.1
  let this := { this with layout_int := r.2.1 }
  if this.layout_usr ≠ none then create_conversions B this r.2.2
  else pure (this, r.2.2)

/-- The member function `create_user_layout` (lines 76-92). -/
def create_user_layout {σ : Type} (B : Backend σ) (this : MKLMemoryDescriptorBase)
    (dimension : Nat) (size strides : List Nat) (s : σ) :
    Except op.Failure (MKLMemoryDescriptorBase × σ) := do
  let s ← (if this.layout_usr ≠ none then do
      let r := B.dnnLayoutDelete this.layout_usr s
      checkStatus r.1
      pure r.2
    else pure s)
  let r := B.dnnLayoutCreate dimension size strides s
  checkStatus r.1
  let this := { this with layout_usr := r.2.1 }
  if this.layout_int ≠ none then create_conversions B this r.2.2
  else pure (this, r.2.2)

/-- The member function `create_layouts` (lines 94-100). -/
def create_layouts {σ : Type} (B : Backend σ) (this : MKLMemoryDescriptorBase)
    (primitive : Option Nat) (type : Nat) (dimension : Nat) (size strides : List Nat) (s : σ) :
    Except op.Failure (MKLMemoryDescriptorBase × σ) := do
  let r ← create_internal_layout B this primitive type s
  create_user_layout B r.1 dimension size strides r.2

/-- The member function `convert_from_prv` (lines 103-114). -/
def convert_from_prv {σ : Type} (B : Backend σ) (this : MKLMemoryDescriptorBase)
    (cpu_ptr : Option Nat) (s : σ) : Except op.Failure σ := do
  if cpu_ptr = none then throw (.fatal .cpuPtrIsNull)
  if this.convert_from_int = none then throw (.fatal .conversionIsNull)
  let r := B.dnnExecute this.convert_from_int this.prv_ptr cpu_ptr s
  checkStatus r.1
  pure r.2

/-- The member function `convert_to_prv` (lines 116-127). -/
def convert_to_prv {σ : Type} (B : Backend σ) (this : MKLMemoryDescriptorBase)
    (cpu_ptr : Option Nat) (s : σ) : Except op.Failure σ := do
  if cpu_ptr = none then throw (.fatal .cpuPtrIsNull)
  if this.convert_to_int = none then throw (.fatal .conversionIsNull)
  let r := B.dnnExecute this.convert_to_int cpu_ptr this.prv_ptr s
  checkStatus r.1
  pure r.2

/-- The member function `layout_compare` (lines 130-144). -/
def layout_compare {σ : Type} (B : Backend σ) (this : MKLMemoryDescriptorBase)
    (other : PrvMemDescr) (s : σ) : Except op.Failure Bool :=
  if other.get_descr_type ≠ .PRV_DESCR_MKL2017 then .error (.fatal .descrType)
  else
    let other_descr := other.descr
    if B.dnnLayoutCompare other_descr.layout_int this.layout_int s then .ok true
    else .ok false

/-- The member function `convert_from_other` (lines 146-166). The status of
`dnnConversionCreate` is overwritten by the status of `dnnExecute`, and the status of
`dnnDelete` is dropped. -/
def convert_from_other {σ : Type} (B : Backend σ) (this : MKLMemoryDescriptorBase)
    (other : PrvMemDescr) (s : σ) : Except op.Failure σ := do
  let other_descr := other.descr
  let r := B.dnnConversionCreate other_descr.layout_int this.layout_int s
  let convert := r.2.1
  let e := B.dnnExecute convert other_descr.prv_ptr this.prv_ptr r.2.2
  checkStatus e.1
  let d := B.dnnDelete convert e.2
  pure d.2

end MKLMemoryDescriptorBase

namespace MKLMemoryDescriptor

/-- The member function `get_converted_prv` (lines 169-189). The arguments `set_prv_ptr` and
`holder` are not read. The result is the returned pointer, the descriptor and the state of the
backend after the call. -/
def get_converted_prv {σ : Type} (B : Backend σ) (this : MKLMemoryDescriptor)
    (cpu_ptr : Option Nat) (_set_prv_ptr : Bool) (_holder : Option Nat)
    (converted_in_fwd : Option MKLMemoryDescriptor) (s : σ) :
    Except op.Failure (Option Nat × MKLMemoryDescriptor × σ) :=
  let prv_ptr : Option Nat := none
  if this.convert_to_int ≠ none then
    if prv_ptr = none then
      match converted_in_fwd with
      | some fwd => .ok (fwd.internal_ptr, this, s)
      | none => do
        let r ← MKLMemoryDescriptorBase.allocate B this s
        let s ← MKLMemoryDescriptorBase.convert_to_prv B r.1 cpu_ptr r.2
        pure (r.1.internal_ptr, r.1, s)
    else .ok (prv_ptr, this, s)
  else .ok (cpu_ptr, this, s)

end MKLMemoryDescriptor

/-! ## A reference backend

The closed evaluations below run the member functions against this backend. It hands out
handles in increasing order, keeps the contents of the layouts that are alive, and records the
handles it is asked to delete and to execute. -/

/-- The state of the reference backend. -/
structure Mkl where
  /-- The statuses that the next calls report, in order; `E_SUCCESS` once the list is used up. -/
  script : List Int
  /-- The next handle to hand out. -/
  next : Nat
  /-- The layouts that are alive, each with its extents followed by its strides. -/
  layouts : List (Nat × List Nat)
  /-- The layout that each operation primitive asks for, by primitive and resource type. -/
  operations : List ((Nat × Nat) × List Nat)
  /-- The primitives passed to `dnnDelete`, the latest first. -/
  deleted : List (Option Nat)
  /-- The primitives passed to `dnnExecute`, the latest first. -/
  executed : List (Option Nat)
  deriving DecidableEq, Repr

namespace Mkl

/-- The status of the next call. -/
def status (s : Mkl) : Int × Mkl :=
  match s.script with
  | [] => (E_SUCCESS, s)
  | e :: rest => (e, { s with script := rest })

/-- A successful creation stores a new handle; a failed one stores null. -/
def create (s : Mkl) : Int × Option Nat × Mkl :=
  let r := s.status
  if r.1 = E_SUCCESS then (r.1, some r.2.next, { r.2 with next := r.2.next + 1 })
  else (r.1, none, r.2)

/-- A successful creation of a layout with the given contents. -/
def createLayout (contents : List Nat) (s : Mkl) : Int × Option Nat × Mkl :=
  let r := s.create
  match r.2.1 with
  | some h => (r.1, some h, { r.2.2 with layouts := (h, contents) :: r.2.2.layouts })
  | none => r

/-- The contents of a layout that is alive. -/
def contents (s : Mkl) (layout : Option Nat) : Option (List Nat) :=
  match layout with
  | some h => s.layouts.lookup h
  | none => none

/-- The reference backend. Two layouts compare equal when both are alive and have the same
extents and strides. -/
def backend : Backend Mkl where
  dnnLayoutCreate := fun dimension size strides s =>
    s.createLayout (size.take dimension ++ strides.take dimension)
  dnnLayoutCreateFromPrimitive := fun primitive type s =>
    match primitive with
    | some p =>
      match s.operations.lookup (p, type) with
      | some c => s.createLayout c
      | none => (-1, none, s)
    | none => (-1, none, s)
  dnnLayoutCompare := fun l1 l2 s =>
    match s.contents l1, s.contents l2 with
    | some c1, some c2 => c1 == c2
    | _, _ => false
  dnnLayoutDelete := fun layout s =>
    let r := s.status
    if r.1 = E_SUCCESS then
      (r.1, { r.2 with layouts := r.2.layouts.filter fun e => some e.1 ≠ layout })
    else r
  dnnConversionCreate := fun _ _ s => s.create
  dnnExecute := fun primitive _ _ s =>
    let r := s.status
    if r.1 = E_SUCCESS then (r.1, { r.2 with executed := primitive :: r.2.executed }) else r
  dnnDelete := fun primitive s =>
    let r := s.status
    (r.1, { r.2 with deleted := primitive :: r.2.deleted })
  dnnAllocateBuffer := fun _ s => s.create

/-- A backend state with two operation primitives: primitive `100` works on 4 x 4 data with
strides `(1, 4)`, primitive `101` on 4 x 4 data with strides `(4, 1)`. The statuses of the next
calls are those of `script`. -/
def start (script : List Int) : Mkl :=
  ⟨script, 1, [], [((100, 0), [4, 4, 1, 4]), ((101, 0), [4, 4, 4, 1])], [], []⟩

end Mkl

namespace op

/-! ## Creation of the operators -/

namespace mshadow

/-- Modelled from the spec: the type code `mshadow::kFloat32`, declared in mshadow, outside the
listed sources. -/
def kFloat32 : Int := 0
/-- Modelled from the spec: the type code `mshadow::kFloat64`. -/
def kFloat64 : Int := 1
/-- Modelled from the spec: the type code `mshadow::kFloat16`. -/
def kFloat16 : Int := 2

end mshadow

/-- The element types `float`, `double` and `mshadow::half::half_t` of the operator templates. -/
inductive DType where
  | float
  | double
  | half_t
  deriving DecidableEq, Repr

/-- The reducers `mshadow::red::maximum` and `mshadow::red::sum`. -/
inductive Reducer where
  | maximum
  | sum
  deriving DecidableEq, Repr

/-- The pairs of forward and backward functions of `mshadow_op` that `ActivationOp` is
instantiated with; each stands for the function and its `_grad` companion. -/
inductive ActivationFn where
  | relu
  | sigmoid
  | tanh
  | softrelu
  deriving DecidableEq, Repr

/-- The operator instances that the two `CreateOp<cpu>` functions construct. -/
inductive Operator where
  /-- The instance `new MKLPoolingOp<cpu, T>(param)`. -/
  | MKLPoolingOp (T : DType) (param : PoolingParam)
  /-- The instance `new PoolingOp<cpu, Reducer, T>(param)`. -/
  | PoolingOp (red : Reducer) (T : DType) (param : PoolingParam)
  /-- The instance `new MKLReluOp<cpu, T>()`. -/
  | MKLReluOp (T : DType)
  /-- The instance `new ActivationOp<cpu, mshadow_op::f, mshadow_op::f_grad, T>()`. -/
  | ActivationOp (f : ActivationFn) (T : DType)
  deriving DecidableEq, Repr

/-- Modelled from the spec: the macro `MSHADOW_REAL_TYPE_SWITCH` of mshadow, outside the listed
sources. It runs its body with the element type of a real type code (`float32`, `float64`,
`float16`) and ends with `LOG(FATAL)` for every other type code. -/
def MSHADOW_REAL_TYPE_SWITCH {α : Type} (type : Int) (body : DType → Except Failure α) :
    Except Failure α :=
  if type = mshadow.kFloat32 then body .float
  else if type = mshadow.kFloat64 then body .double
  else if type = mshadow.kFloat16 then body .half_t
  else .error (.fatal .notRealType)

namespace pooling

/-- The function `CreateOp<cpu>(PoolingParam, ...)` of `pooling.cc` (lines 18-55). The flag
`MXNET_USE_MKL2017` tells whether the block under `#if MXNET_USE_MKL2017 == 1` is compiled in;
the predicate `UseMKLPooling` is declared in `mkl_pooling-inl.h`, outside the listed sources,
and is an argument. -/
def CreateOp (MXNET_USE_MKL2017 : Bool)
    (UseMKLPooling : PoolingParam → List TShape → List TShape → Bool)
    (param : PoolingParam) (dtype : Int) (in_shape out_shape : List TShape) :
    Except Failure Operator :=
  let generic : Except Failure Operator :=
    MSHADOW_REAL_TYPE_SWITCH dtype fun T =>
      if param.pool_type = pool_enum.kMaxPooling then .ok (.PoolingOp .maximum T param)
      else if param.pool_type = pool_enum.kAvgPooling then .ok (.PoolingOp .sum T param)
      else if param.pool_type = pool_enum.kSumPooling then .ok (.PoolingOp .sum T param)
      else .error (.fatal .unknownPoolingType)
  if MXNET_USE_MKL2017 = true
      ∧ (param.pool_type = pool_enum.kMaxPooling ∨ param.pool_type = pool_enum.kAvgPooling)
      ∧ UseMKLPooling param in_shape out_shape = true then
    if dtype = mshadow.kFloat32 then .ok (.MKLPoolingOp .float param)
    else if dtype = mshadow.kFloat64 then .ok (.MKLPoolingOp .double param)
    else generic
  else generic

end pooling

namespace activation

/-- Modelled from the spec: the value of `activation::kReLU`; the enumeration is declared in
`activation-inl.h`, outside the listed sources. -/
def kReLU : Int := 0
/-- Modelled from the spec: the value of `activation::kSigmoid`. -/
def kSigmoid : Int := 1
/-- Modelled from the spec: the value of `activation::kTanh`. -/
def kTanh : Int := 2
/-- Modelled from the spec: the value of `activation::kSoftReLU`. -/
def kSoftReLU : Int := 3

/-- Modelled from the spec: the parameters of the activation operator (`struct
ActivationParam` of `activation-inl.h`), of which `CreateOp` reads `act_type`. -/
structure ActivationParam where
  act_type : Int
  deriving DecidableEq, Repr

/-- The function `CreateOp<cpu>(ActivationParam, int)` of `activation.cc` (lines 17-52). -/
def CreateOp (MXNET_USE_MKL2017 : Bool) (param : ActivationParam) (dtype : Int) :
    Except Failure Operator :=
  let generic : Except Failure Operator :=
    MSHADOW_REAL_TYPE_SWITCH dtype fun T =>
      if param.act_type = kReLU then .ok (.ActivationOp .relu T)
      else if param.act_type = kSigmoid then .ok (.ActivationOp .sigmoid T)
      else if param.act_type = kTanh then .ok (.ActivationOp .tanh T)
      else if param.act_type = kSoftReLU then .ok (.ActivationOp .softrelu T)
      else .error (.fatal .unknownActivationType)
  if MXNET_USE_MKL2017 = true ∧ param.act_type = kReLU then
    if dtype = mshadow.kFloat32 then .ok (.MKLReluOp .float)
    else if dtype = mshadow.kFloat64 then .ok (.MKLReluOp .double)
    else generic
  else generic

end activation

/-! ## The set-up of the accelerated ReLU operator -/

/-- Modelled from the spec: the type `size_t` of the sizes and strides of a layout has 64 bits
on the platforms of the backend, so arithmetic on strides is taken modulo this number,
`2 ^ 64`. -/
def sizeMod : Nat := 18446744073709551616

/-- The shape `mshadow::Shape<4>` of a 4-D tensor; every extent is an `index_t`. -/
structure Shape4 where
  shape0 : Nat
  shape1 : Nat
  shape2 : Nat
  shape3 : Nat
  deriving DecidableEq, Repr

/-- The read `shape_[i]` of a `Shape<4>`, for `i` below 4. -/
def Shape4.get (shape : Shape4) (i : Nat) : Nat :=
  match i with
  | 0 => shape.shape0
  | 1 => shape.shape1
  | 2 => shape.shape2
  | _ => shape.shape3

/-- Modelled from the spec: a `TBlob`, declared in `tensor_blob.h`, outside the listed sources:
its shape, the device it lives on and the code of its element type. -/
structure TBlob where
  shape_ : TShape
  dev_mask_ : Int
  type_flag_ : Int
  deriving DecidableEq, Repr

/-- The two accessors of `TBlob` that `Forward` calls, `get_with_shape<xpu, 4, DType>` and
`get<xpu, 4, DType>`. They are declared in `tensor_blob.h`, outside the listed sources, and are
arguments of `Forward`: each ends in one of its failed checks or gives the 4-D tensor it
returns, by its shape. -/
structure TBlobAccess where
  get_with_shape : TBlob → Shape4 → Except Failure Shape4
  get : TBlob → Except Failure Shape4

/-- The members of `MKLReluOp` that the set-up reads and writes. -/
structure MKLReluOp where
  init_mkldnn_ : Bool
  fwd_top_data_ : MKLMemoryDescriptor
  fwd_bottom_data_ : MKLMemoryDescriptor
  bwd_top_diff_ : MKLMemoryDescriptor
  bwd_bottom_diff_ : MKLMemoryDescriptor
  deriving DecidableEq, Repr

namespace MKLReluOp

/-- One pass of the loop of `LayerSetUp` (lines 72-75) on the arrays `sizes` and `strides`,
whose entries below `d` are filled:
`sizes[d] = data.shape_[dim - 1 - d]` and
`strides[d] = (d == 0) ? 1 : strides[d - 1] * sizes[d - 1]`. -/
def loopBody (shape_ : Shape4) (dim : Nat) (arrays : List Nat × List Nat) (d : Nat) :
    List Nat × List Nat :=
  let sizes := arrays.1 ++ [shape_.get (dim - 1 - d)]
  let strides := arrays.2 ++
    [if d = 0 then 1 else (arrays.2.getD (d - 1) 0 * sizes.getD (d - 1) 0) % sizeMod]
  (sizes, strides)

/-- The arrays `sizes` and `strides` after the loop `for (size_t d = 0; d < dim; ++d)`. -/
def sizesAndStrides (shape_ : Shape4) (dim : Nat) : List Nat × List Nat :=
  (List.range dim).foldl (loopBody shape_ dim) ([], [])

/-- Lines 69-84 of `LayerSetUp`: the two arrays are filled by the loop and passed, with the
dimension count, to `create_user_layout` of the four descriptors. `data` is given by its
shape. The names of the descriptors, which the source sets for debugging, are left out. -/
def LayerSetUp_layouts {σ : Type} (B : Backend σ) (this : MKLReluOp) (data : Shape4) (s : σ) :
    Except Failure (MKLReluOp × σ) := do
  let dim := 4
  let arrays := sizesAndStrides data dim
  let r ← this.fwd_bottom_data_.create_user_layout B dim arrays.1 arrays.2 s
  let this := { this with fwd_bottom_data_ := r.1 }
  let r ← this.fwd_top_data_.create_user_layout B dim arrays.1 arrays.2 r.2
  let this := { this with fwd_top_data_ := r.1 }
  let r ← this.bwd_bottom_diff_.create_user_layout B dim arrays.1 arrays.2 r.2
  let this := { this with bwd_bottom_diff_ := r.1 }
  let r ← this.bwd_top_diff_.create_user_layout B dim arrays.1 arrays.2 r.2
  pure ({ this with bwd_top_diff_ := r.1 }, r.2)

/-- The member function `LayerSetUp` (lines 67-87); `data` and `out` are given by their shapes,
and `out` is not read. After the four calls the source releases the two arrays with `free`
(lines 85-86); they were obtained with `new[]` (lines 70-71), and C++ gives no meaning to
that. -/
def LayerSetUp {σ : Type} (B : Backend σ) (this : MKLReluOp) (data _out : Shape4) (s : σ) :
    Except Failure (MKLReluOp × σ) := do
  let _ ← LayerSetUp_layouts B this data s
  throw .undefinedBehaviour

/-- The first part of the member function `Forward` (lines 97-114): the two checks on the
numbers of blobs, the views `data` and `out` of the input and the output blob, and the set-up
on the first call. The result holds the shapes of `data` and `out`. -/
def Forward {σ : Type} (B : Backend σ) (A : TBlobAccess) (this : MKLReluOp)
    (in_data out_data : List TBlob) (s : σ) :
    Except Failure (MKLReluOp × Shape4 × Shape4 × σ) :=
  match in_data, out_data with
  | [in0], [out0] => do
    let views ←
      (if in0.shape_.length = 2 then do
        let shape0 ← index in0.shape_ 0
        let shape1 ← index in0.shape_ 1
        let dshape : Shape4 := ⟨shape0, shape1, 1, 1⟩
        let data ← A.get_with_shape in0 dshape
        let out ← A.get_with_shape out0 dshape
        pure (data, out)
      else do
        let data ← A.get in0
        let out ← A.get out0
        pure (data, out))
    if !this.init_mkldnn_ then
      let r ← LayerSetUp B this views.1 views.2 s
      pure ({ r.1 with init_mkldnn_ := true }, views.1, views.2, r.2)
    else pure (this, views.1, views.2, s)
  | [_], _ => .error (.fatal .outDataSize)
  | _, _ => .error (.fatal .inDataSize)

end MKLReluOp

/-! ## Arithmetic without wrap-around -/

theorem wrap_of_lt {x : Nat} (h : x < 4294967296) : wrap x = x := by
  unfold wrap indexMod
  omega

theorem paddedExtent_of_lt {d p : Nat} (h : d + 2 * p < 4294967296) :
    paddedExtent d p = d + 2 * p := by
  unfold paddedExtent uadd umul wrap indexMod
  omega

theorem usub_of_le {a b : Nat} (ha : a < 4294967296) (hb : b ≤ a) : usub a b = a - b := by
  unfold usub wrap indexMod
  omega

theorem validExtent_of_fits {d p k s : Nat} (hs : s ≠ 0) (hk0 : k ≠ 0) (hk : k ≤ d + 2 * p)
    (hp : d + 2 * p < 4294967296) :
    validExtent d p k s = .ok (1 + (d + 2 * p - k) / s) := by
  have hq : (d + 2 * p - k) / s ≤ d + 2 * p - k := Nat.div_le_self _ _
  unfold validExtent
  rw [if_neg hs, paddedExtent_of_lt hp, usub_of_le hp hk]
  unfold uadd
  rw [wrap_of_lt (by omega)]

/-! ## Unfolding `InferShape` on an input of matching rank -/

/-- The body `InferShape` runs for a 2-D kernel on a 4-D input when `global_pool` is off. -/
theorem InferShape_kernel2 (param_ : PoolingParam) (n c h w : Nat) (out_shape : List TShape)
    (hk : param_.kernel.length = 2) (hg : param_.global_pool = false) :
    InferShape param_ [[n, c, h, w]] out_shape =
      (do
        let fits ← andThen (kernelFits param_ [n, c, h, w] 2 0)
          (kernelFits param_ [n, c, h, w] 3 1)
        if !fits then throw (.fatal .kernelSizeExceedInput)
        if param_.pooling_convention = pool_enum.kValid then
          let oshape ← setValid param_ [n, c, h, w] [n, c, h, w] 2 0
          let oshape ← setValid param_ [n, c, h, w] oshape 3 1
          pure (true, [oshape])
        else
          let oshape ← setFull param_ [n, c, h, w] [n, c, h, w] 2 0
          let oshape ← setFull param_ [n, c, h, w] oshape 3 1
          pure (true, [oshape])) := by
  simp [InferShape, hk, hg]

/-- The `valid` convention on a 4-D input, for non-zero strides and kernel extents that fit
the padded input without wrap-around. -/
theorem InferShape_valid_2d_eq (n c h w k0 k1 s0 s1 p0 p1 : Nat) (pool_type : Int)
    (out_shape : List TShape) (hs0 : s0 ≠ 0) (hs1 : s1 ≠ 0) (hz0 : k0 ≠ 0) (hz1 : k1 ≠ 0)
    (hk0 : k0 ≤ h + 2 * p0) (hk1 : k1 ≤ w + 2 * p1)
    (hp0 : h + 2 * p0 < 4294967296) (hp1 : w + 2 * p1 < 4294967296) :
    InferShape ⟨[k0, k1], [s0, s1], [p0, p1], pool_type, pool_enum.kValid, false⟩
        [[n, c, h, w]] out_shape
      = .ok (true, [[n, c, 1 + (h + 2 * p0 - k0) / s0, 1 + (w + 2 * p1 - k1) / s1]]) := by
  rw [InferShape_kernel2 ⟨[k0, k1], [s0, s1], [p0, p1], pool_type, pool_enum.kValid, false⟩
    n c h w out_shape rfl rfl]
  simp only [andThen, kernelFits, setValid, index, bind, Except.bind, pure, Except.pure]
  simp only [List.getElem?_cons_zero, List.getElem?_cons_succ, paddedExtent_of_lt hp0,
    paddedExtent_of_lt hp1, validExtent_of_fits hs0 hz0 hk0 hp0,
    validExtent_of_fits hs1 hz1 hk1 hp1]
  simp [hk0, hk1, pool_enum.kValid]

/-! ## The `valid` convention with a 2-D kernel -/

/-- C1. With a 2-D kernel, `global_pool` off and the `valid` convention, inference on a 4-D
input `(n, c, h, w)` succeeds whenever strides and kernel extents are non-zero, each kernel
extent is at most the padded input extent and the padded extent does not overflow 32 bits;
the output shape is `(n, c, 1 + (h + 2*pad[0] - kernel[0]) / stride[0],
1 + (w + 2*pad[1] - kernel[1]) / stride[1])` with the rounded-down quotient. -/
theorem InferShape_valid_2d (n c h w k0 k1 s0 s1 p0 p1 : Nat) (pool_type : Int)
    (out_shape : List TShape) (hs0 : s0 ≠ 0) (hs1 : s1 ≠ 0) (hz0 : k0 ≠ 0) (hz1 : k1 ≠ 0)
    (hk0 : k0 ≤ h + 2 * p0) (hk1 : k1 ≤ w + 2 * p1)
    (hp0 : h + 2 * p0 < 2 ^ 32) (hp1 : w + 2 * p1 < 2 ^ 32) :
    InferShape ⟨[k0, k1], [s0, s1], [p0, p1], pool_type, pool_enum.kValid, false⟩
        [[n, c, h, w]] out_shape
      = .ok (true, [[n, c, 1 + (h + 2 * p0 - k0) / s0, 1 + (w + 2 * p1 - k1) / s1]]) :=
  InferShape_valid_2d_eq n c h w k0 k1 s0 s1 p0 p1 pool_type out_shape hs0 hs1 hz0 hz1 hk0 hk1
    hp0 hp1

/-- The scenario of C1: kernel `(2,2)`, stride `(2,2)`, pad `(0,0)` on the input `(1,3,4,4)`
gives `(1,3,2,2)`. -/
theorem InferShape_valid_2d_witness :
    InferShape ⟨[2, 2], [2, 2], [0, 0], pool_enum.kMaxPooling, pool_enum.kValid, false⟩
        [[1, 3, 4, 4]] []
      = .ok (true, [[1, 3, 1 + (4 + 2 * 0 - 2) / 2, 1 + (4 + 2 * 0 - 2) / 2]])
    ∧ [1, 3, 1 + (4 + 2 * 0 - 2) / 2, 1 + (4 + 2 * 0 - 2) / 2] = [1, 3, 2, 2] :=
  ⟨InferShape_valid_2d 1 3 4 4 2 2 2 2 0 0 pool_enum.kMaxPooling [] (by decide) (by decide)
    (by decide) (by decide) (by decide) (by decide) (by decide) (by decide), by decide⟩

/-! ## The `full` scenario -/

/-- C2, as the code behaves: with the `full` convention, kernel `(3,3)`, stride `(2,2)` and
pad `(1,1)`, the input `(1,3,4,4)` yields `(1,3,3,3)`, since `1 + ceil((4 + 2 - 3) / 2) = 3`. -/
theorem InferShape_full_scenario :
    InferShape ⟨[3, 3], [2, 2], [1, 1], pool_enum.kMaxPooling, pool_enum.kFull, false⟩
        [[1, 3, 4, 4]] []
      = .ok (true, [[1, 3, 3, 3]]) := by
  decide

/-- C2, as stated, fails: the inferred shape of the scenario is not `(1,3,2,2)`. -/
theorem InferShape_full_scenario_not_2 :
    InferShape ⟨[3, 3], [2, 2], [1, 1], pool_enum.kMaxPooling, pool_enum.kFull, false⟩
        [[1, 3, 4, 4]] []
      ≠ .ok (true, [[1, 3, 2, 2]]) := by
  decide

/-! ## Global pooling -/

/-- C3 at a failing input: with `global_pool` set, a 3-D kernel `(5,5,5)` on the 5-D input
`(1,1,4,4,4)` is rejected by the kernel-size check, which the 3-D branch runs before it looks
at `global_pool`; the 2-D branch accepts the corresponding input and yields extents `1`. -/
theorem InferShape_global_3d_rejected :
    InferShape ⟨[5, 5, 5], [1, 1, 1], [0, 0, 0], pool_enum.kMaxPooling, pool_enum.kValid, true⟩
        [[1, 1, 4, 4, 4]] []
      = .error (.fatal .kernelSizeExceedInput)
    ∧ InferShape ⟨[5, 5], [1, 1], [0, 0], pool_enum.kMaxPooling, pool_enum.kValid, true⟩
        [[1, 1, 4, 4]] []
      = .ok (true, [[1, 1, 1, 1]]) := by
  decide

/-- With a 2-D kernel and `global_pool` set, inference on a 4-D input `(n, c, h, w)` succeeds
with the output shape `(n, c, 1, 1)`, whatever the kernel, the strides, the padding, the
pooling type and the convention are. -/
theorem InferShape_global_2d (k0 k1 : Nat) (stride pad : TShape) (pool_type convention : Int)
    (n c h w : Nat) (out_shape : List TShape) :
    InferShape ⟨[k0, k1], stride, pad, pool_type, convention, true⟩ [[n, c, h, w]] out_shape
      = .ok (true, [[n, c, 1, 1]]) := by
  simp [InferShape]

/-! ## The kernel-size check -/

/-- C4 at a failing input: a 3-D kernel `(4,4,4)` equal to the padded extent of the input
`(1,1,4,4,4)` in every spatial dimension is rejected with "kernel size exceed input", because
the first conjunct of the 3-D check is strict; the 2-D kernel `(4,4)` on `(1,1,4,4)` is
accepted. -/
theorem InferShape_kernel_equal_3d_rejected :
    InferShape ⟨[4, 4, 4], [1, 1, 1], [0, 0, 0], pool_enum.kMaxPooling, pool_enum.kValid, false⟩
        [[1, 1, 4, 4, 4]] []
      = .error (.fatal .kernelSizeExceedInput)
    ∧ InferShape ⟨[4, 4], [1, 1], [0, 0], pool_enum.kMaxPooling, pool_enum.kValid, false⟩
        [[1, 1, 4, 4]] []
      = .ok (true, [[1, 1, 1, 1]]) := by
  decide

/-! ## Rounding with a 3-D kernel -/

/-- C5 at failing inputs: with a 3-D kernel the rounding follows `pool_type`, not
`pooling_convention`. For kernel `(2,2,2)`, stride `(2,2,2)` on `(1,1,5,5,5)`, where
`(5 - 2) / 2 = 1.5`: average pooling with the `valid` convention gives the rounded-up extent
`3`, and max pooling with the `full` convention gives the rounded-down extent `2`. -/
theorem InferShape_3d_rounding_by_pool_type :
    InferShape ⟨[2, 2, 2], [2, 2, 2], [0, 0, 0], pool_enum.kAvgPooling, pool_enum.kValid, false⟩
        [[1, 1, 5, 5, 5]] []
      = .ok (true, [[1, 1, 3, 3, 3]])
    ∧ InferShape ⟨[2, 2, 2], [2, 2, 2], [0, 0, 0], pool_enum.kMaxPooling, pool_enum.kFull, false⟩
        [[1, 1, 5, 5, 5]] []
      = .ok (true, [[1, 1, 2, 2, 2]]) := by
  decide

/-! ## The window inequality of the `valid` convention -/

/-- The rounded-down quotient places the last window inside the padded input. -/
theorem valid_window {h k s p : Nat} (hs : 1 ≤ s) (hk : k ≤ h + 2 * p) :
    (s : Int) * (((1 + (h + 2 * p - k) / s : Nat) : Int) - 1) + k - 2 * p ≤ h
    ∧ (h : Int) < s * ((1 + (h + 2 * p - k) / s : Nat) : Int) + k - 2 * p := by
  have h1 : s * ((h + 2 * p - k) / s) ≤ h + 2 * p - k := Nat.mul_div_le _ _
  have h2 : h + 2 * p - k < s * ((h + 2 * p - k) / s) + s := Nat.lt_mul_div_succ _ (by omega)
  generalize (h + 2 * p - k) / s = q at h1 h2
  have e1 : ((s * q : Nat) : Int) = (s : Int) * q := by push_cast; ring
  constructor
  · have : (s : Int) * (((1 + q : Nat) : Int) - 1) = ((s * q : Nat) : Int) := by
      push_cast; ring
    rw [this]
    omega
  · have : (s : Int) * ((1 + q : Nat) : Int) = ((s * q : Nat) : Int) + s := by
      push_cast; ring
    rw [this]
    omega

/-- C6, amended with the 32-bit range: with a 2-D kernel, `global_pool` off and the `valid`
convention, for strides and kernel extents of at least `1` and pads with
`2*pad + input_extent >= kernel`, provided `input_extent + 2*pad` stays below `2 ^ 32`,
inference succeeds and each inferred output extent `out` satisfies, over the integers,
`stride*(out-1) + kernel - 2*pad <= input_extent < stride*out + kernel - 2*pad`. -/
theorem InferShape_valid_2d_window (n c h w k0 k1 s0 s1 p0 p1 : Nat) (pool_type : Int)
    (out_shape : List TShape) (hs0 : 1 ≤ s0) (hs1 : 1 ≤ s1) (hz0 : 1 ≤ k0) (hz1 : 1 ≤ k1)
    (hk0 : k0 ≤ 2 * p0 + h) (hk1 : k1 ≤ 2 * p1 + w)
    (hp0 : h + 2 * p0 < 2 ^ 32) (hp1 : w + 2 * p1 < 2 ^ 32) :
    ∃ o2 o3 : Nat,
      InferShape ⟨[k0, k1], [s0, s1], [p0, p1], pool_type, pool_enum.kValid, false⟩
          [[n, c, h, w]] out_shape = .ok (true, [[n, c, o2, o3]])
      ∧ ((s0 : Int) * ((o2 : Int) - 1) + k0 - 2 * p0 ≤ h ∧ (h : Int) < s0 * o2 + k0 - 2 * p0)
      ∧ ((s1 : Int) * ((o3 : Int) - 1) + k1 - 2 * p1 ≤ w ∧ (w : Int) < s1 * o3 + k1 - 2 * p1) :=
  ⟨1 + (h + 2 * p0 - k0) / s0, 1 + (w + 2 * p1 - k1) / s1,
    InferShape_valid_2d_eq n c h w k0 k1 s0 s1 p0 p1 pool_type out_shape (by omega) (by omega)
      (by omega) (by omega) (by omega) (by omega) hp0 hp1,
    valid_window hs0 (by omega), valid_window hs1 (by omega)⟩

/-- An instance of the amended C6: kernel `(3,3)`, stride `(2,2)`, pad `(1,1)` on
`(1,3,7,7)`. -/
theorem InferShape_valid_2d_window_witness :
    ∃ o2 o3 : Nat,
      InferShape ⟨[3, 3], [2, 2], [1, 1], pool_enum.kMaxPooling, pool_enum.kValid, false⟩
          [[1, 3, 7, 7]] [] = .ok (true, [[1, 3, o2, o3]])
      ∧ (((2 : Nat) : Int) * ((o2 : Int) - 1) + (3 : Nat) - 2 * (1 : Nat) ≤ (7 : Nat)
          ∧ ((7 : Nat) : Int) < (2 : Nat) * o2 + (3 : Nat) - 2 * (1 : Nat))
      ∧ (((2 : Nat) : Int) * ((o3 : Int) - 1) + (3 : Nat) - 2 * (1 : Nat) ≤ (7 : Nat)
          ∧ ((7 : Nat) : Int) < (2 : Nat) * o3 + (3 : Nat) - 2 * (1 : Nat)) :=
  InferShape_valid_2d_window 1 3 7 7 3 3 2 2 1 1 pool_enum.kMaxPooling [] (by decide)
    (by decide) (by decide) (by decide) (by decide) (by decide) (by decide) (by decide)

/-- C6, as stated, fails where the padded extent wraps around: for input extent `4`,
kernel `2`, stride `1` and pad `2147483648` the hypothesis `2*pad + input_extent >= kernel`
holds, `4 + 2*pad` is `4` in 32-bit unsigned arithmetic, the inferred extent is `3`, and
`4 < 1*3 + 2 - 2*2147483648` is false. -/
theorem InferShape_valid_2d_window_wraps :
    (2 : Int) ≤ 2 * 2147483648 + 4
    ∧ InferShape ⟨[2, 2], [1, 1], [2147483648, 2147483648], pool_enum.kMaxPooling,
          pool_enum.kValid, false⟩ [[1, 1, 4, 4]] [] = .ok (true, [[1, 1, 3, 3]])
    ∧ ¬ ((1 : Int) * (3 - 1) + 2 - 2 * 2147483648 ≤ 4
          ∧ (4 : Int) < 1 * 3 + 2 - 2 * 2147483648) := by
  decide

/-! ## Single-precision rounding of small quotients -/

theorem ilog2Aux_bounds (fuel : Nat) : ∀ n : Nat, 0 < n → n ≤ fuel →
    2 ^ ilog2Aux fuel n ≤ n ∧ n < 2 ^ (ilog2Aux fuel n + 1) := by
  induction fuel with
  | zero => intro n h0 h1; omega
  | succ fuel ih =>
    intro n h0 h1
    unfold ilog2Aux
    by_cases h2 : n < 2
    · rw [if_pos h2]
      constructor
      · simpa using h0
      · simpa using h2
    · rw [if_neg h2]
      have hh := ih (n / 2) (by omega) (by omega)
      rw [pow_succ, pow_succ]
      rw [pow_succ] at hh
      omega

theorem ilog2_bounds {n : Nat} (h : 0 < n) : 2 ^ ilog2 n ≤ n ∧ n < 2 ^ (ilog2 n + 1) :=
  ilog2Aux_bounds n n h le_rfl

/-- Rounding a scaled quotient to the nearest integer keeps its ceiling: if `a < 2 ^ 24` and
the scale `2 ^ k` brings `a / b` to at least `2 ^ 23`, the rounded mantissa `m` satisfies
`ceil (m / 2 ^ k) = ceil (a / b)`. -/
theorem round_keeps_ceil {a b k m : Nat} (hb : 0 < b) (ha0 : 0 < a) (ha : a < 16777216)
    (hK : b * 8388608 ≤ a * 2 ^ k)
    (hm : m = if b < 2 * (a * 2 ^ k % b) ∨ (2 * (a * 2 ^ k % b) = b ∧ a * 2 ^ k / b % 2 = 1)
      then a * 2 ^ k / b + 1 else a * 2 ^ k / b) :
    (m + 2 ^ k - 1) / 2 ^ k = (a + b - 1) / b := by
  have hP : 0 < 2 ^ k := pow_pos (by norm_num) k
  generalize hPd : 2 ^ k = P at *
  -- the ceiling `c + 1` of `a / b`
  obtain ⟨c, hc⟩ : ∃ c, (a + b - 1) / b = c + 1 := by
    have : 1 ≤ (a + b - 1) / b := (Nat.one_le_div_iff hb).2 (by omega)
    exact ⟨(a + b - 1) / b - 1, by omega⟩
  have hc1 : c * b < a := by
    have h1 : (c + 1) * b ≤ a + b - 1 := by
      rw [← hc]; exact Nat.div_mul_le_self _ _
    have : (c + 1) * b = c * b + b := by ring
    omega
  have hc2 : a ≤ (c + 1) * b := by
    have h1 : a + b - 1 < ((a + b - 1) / b + 1) * b := by
      have := Nat.lt_mul_div_succ (a + b - 1) hb
      calc a + b - 1 < b * ((a + b - 1) / b + 1) := this
        _ = ((a + b - 1) / b + 1) * b := by ring
    rw [hc] at h1
    have : (c + 1 + 1) * b = (c + 1) * b + b := by ring
    omega
  have hdm : b * (a * P / b) + a * P % b = a * P := Nat.div_add_mod _ _
  have hr : a * P % b < b := Nat.mod_lt _ hb
  generalize a * P / b = m0 at *
  generalize a * P % b = r at *
  have hb2 : b < 2 * P := by
    have : a * P < 16777216 * P := Nat.mul_lt_mul_of_pos_right ha hP
    omega
  have e1 : a * P ≤ (c + 1) * P * b := by
    calc a * P ≤ (c + 1) * b * P := Nat.mul_le_mul_right _ hc2
      _ = (c + 1) * P * b := by ring
  have e2 : c * P * b + P ≤ a * P := by
    calc c * P * b + P = (c * b + 1) * P := by ring
      _ ≤ a * P := Nat.mul_le_mul_right _ hc1
  have hup : m ≤ (c + 1) * P := by
    by_contra hcon
    push_neg at hcon
    have hm0 : (c + 1) * P ≤ m0 := by
      rw [hm] at hcon
      split_ifs at hcon <;> omega
    have e3 : b * ((c + 1) * P) ≤ b * m0 := Nat.mul_le_mul_left _ hm0
    have e4 : b * ((c + 1) * P) = (c + 1) * P * b := by ring
    have hr0 : r = 0 := by omega
    have hm0' : m = m0 := by
      rw [hm, hr0]
      rw [if_neg]
      omega
    have e5 : b * m0 ≤ (c + 1) * P * b := by omega
    have : m0 ≤ (c + 1) * P := by
      by_contra h'
      push_neg at h'
      have : b * ((c + 1) * P + 1) ≤ b * m0 := Nat.mul_le_mul_left _ h'
      have : b * ((c + 1) * P + 1) = (c + 1) * P * b + b := by ring
      omega
    omega
  have hlo : c * P < m := by
    by_contra hcon
    push_neg at hcon
    have hmm : m0 ≤ m := by
      rw [hm]; split_ifs <;> omega
    have hm0 : m0 ≤ c * P := le_trans hmm hcon
    have e3 : b * m0 ≤ b * (c * P) := Nat.mul_le_mul_left _ hm0
    have e4 : b * (c * P) = c * P * b := by ring
    have hrP : P ≤ r := by omega
    have hm1 : m = m0 + 1 := by
      rw [hm, if_pos]
      left; omega
    have e5 : b * (m0 + 1) ≤ b * (c * P) := Nat.mul_le_mul_left _ (by omega)
    have e6 : b * (m0 + 1) = b * m0 + b := by ring
    omega
  rw [hc]
  have q1 : (c + 1) * P = c * P + P := by ring
  have q2 : (c + 1 + 1) * P = c * P + P + P := by ring
  clear hm
  apply Nat.div_eq_of_lt_le
  · omega
  · omega

/-- For a dividend below `2 ^ 24` the exponent of the quotient is at most `23`, and scaling by
`2 ^ (23 - e)` brings the quotient to at least `2 ^ 23`. -/
theorem quotientExponent_small {a b : Nat} (ha0 : 0 < a) (ha : a < 16777216) (hb : 0 < b) :
    ∃ k : Nat, quotientExponent a b = 23 - (k : Int) ∧ b * 8388608 ≤ a * 2 ^ k := by
  obtain ⟨ha1, ha2⟩ := ilog2_bounds ha0
  obtain ⟨hb1, hb2⟩ := ilog2_bounds hb
  have hla : ilog2 a ≤ 23 := by
    by_contra h
    push_neg at h
    have : 2 ^ 24 ≤ 2 ^ ilog2 a := Nat.pow_le_pow_right (by norm_num) h
    omega
  unfold quotientExponent
  simp only
  generalize ilog2 a = la at *
  generalize ilog2 b = lb at *
  split_ifs with ht
  · -- the quotient is below `2 ^ (la - lb)`: the exponent is `la - lb - 1`
    refine ⟨24 + lb - la, by omega, ?_⟩
    have e1 : a * 2 ^ (24 + lb - la) ≥ 2 ^ la * 2 ^ (24 + lb - la) :=
      Nat.mul_le_mul_right _ ha1
    have e2 : 2 ^ la * 2 ^ (24 + lb - la) = 2 ^ (lb + 1) * 8388608 := by
      rw [← pow_add, show la + (24 + lb - la) = (lb + 1) + 23 by omega, pow_add]
      norm_num
    have e3 : b * 8388608 ≤ 2 ^ (lb + 1) * 8388608 := Nat.mul_le_mul_right _ (le_of_lt hb2)
    omega
  · -- the quotient is at least `2 ^ (la - lb)`
    refine ⟨23 + lb - la, by omega, ?_⟩
    push_neg at ht
    by_cases hl : lb ≤ la
    · have h1 : ((la : Int) - lb).toNat = la - lb := by omega
      have h2 : (-((la : Int) - lb)).toNat = 0 := by omega
      rw [h1, h2, pow_zero, mul_one] at ht
      have e1 : b * 2 ^ (la - lb) * 2 ^ (23 + lb - la) ≤ a * 2 ^ (23 + lb - la) :=
        Nat.mul_le_mul_right _ ht
      have e2 : b * 2 ^ (la - lb) * 2 ^ (23 + lb - la) = b * 8388608 := by
        rw [mul_assoc, ← pow_add, show la - lb + (23 + lb - la) = 23 by omega]
        norm_num
      omega
    · have h1 : ((la : Int) - lb).toNat = 0 := by omega
      have h2 : (-((la : Int) - lb)).toNat = lb - la := by omega
      rw [h1, h2, pow_zero, mul_one] at ht
      have e1 : b * 8388608 ≤ a * 2 ^ (lb - la) * 8388608 := Nat.mul_le_mul_right _ ht
      have e2 : a * 2 ^ (lb - la) * 8388608 = a * 2 ^ (23 + lb - la) := by
        rw [mul_assoc, show 23 + lb - la = (lb - la) + 23 by omega, pow_add]
        norm_num
      omega

/-- The ceiling of a float whose exponent is `-k`. -/
theorem fceil_scaled (m k : Nat) :
    fceil ⟨m, 23 - (k : Int) - 23⟩ = (m + 2 ^ k - 1) / 2 ^ k := by
  unfold fceil
  simp only
  split_ifs with hz
  · have hk0 : k = 0 := by omega
    subst hk0
    simp
  · have h3 : (-((23 : Int) - (k : Int) - 23)).toNat = k := by omega
    rw [h3]

/-- The ceiling of the single-precision quotient of a dividend below `2 ^ 24` is the exact
ceiling of the quotient. -/
theorem fceil_fdiv_small {a b : Nat} (ha : a < 16777216) (hb : 0 < b) :
    fceil (fdiv a b) = (a + b - 1) / b := by
  by_cases ha0 : a = 0
  · subst ha0
    have : (0 + b - 1) / b = 0 := Nat.div_eq_of_lt (by omega)
    rw [this]
    simp [fdiv, fceil]
  · obtain ⟨k, hk, hK⟩ := quotientExponent_small (Nat.pos_of_ne_zero ha0) ha hb
    unfold fdiv
    rw [if_neg ha0, hk]
    unfold roundQuotient
    have h1 : ((23 : Int) - (23 - (k : Int))).toNat = k := by omega
    have h2 : (-((23 : Int) - (23 - (k : Int)))).toNat = 0 := by omega
    simp only [h1, h2, pow_zero, mul_one]
    rw [fceil_scaled]
    exact round_keeps_ceil hb (Nat.pos_of_ne_zero ha0) ha hK rfl

theorem castFloat_small {n : Nat} (h : n < 16777216) : castFloat n = n := by
  unfold castFloat
  rw [if_pos h]

theorem castFloat_large {n : Nat} (h : 16777216 ≤ n) : 16777216 ≤ castFloat n := by
  obtain ⟨h1, h2⟩ := ilog2_bounds (show 0 < n by omega)
  have hl : 24 ≤ ilog2 n := by
    by_contra hc
    push_neg at hc
    have : 2 ^ (ilog2 n + 1) ≤ 2 ^ 24 := Nat.pow_le_pow_right (by norm_num) hc
    omega
  unfold castFloat
  rw [if_neg (by omega)]
  simp only
  generalize ilog2 n = l at *
  obtain ⟨j, rfl⟩ : ∃ j, l = j + 24 := ⟨l - 24, by omega⟩
  have hsh : j + 24 - 23 = j + 1 := by omega
  rw [hsh]
  have hP : 0 < 2 ^ (j + 1) := pow_pos (by norm_num) _
  have hm0 : 8388608 ≤ n / 2 ^ (j + 1) := by
    rw [Nat.le_div_iff_mul_le hP]
    have : 8388608 * 2 ^ (j + 1) = 2 ^ (j + 24) := by ring
    omega
  have h2P : 2 ≤ 2 ^ (j + 1) := by
    rw [pow_succ]
    have : 0 < 2 ^ j := pow_pos (by norm_num) _
    omega
  have hm : 8388608 ≤ (if 2 ^ (j + 1) < 2 * (n % 2 ^ (j + 1)) ∨
      2 * (n % 2 ^ (j + 1)) = 2 ^ (j + 1) ∧ n / 2 ^ (j + 1) % 2 = 1
      then n / 2 ^ (j + 1) + 1 else n / 2 ^ (j + 1)) := by
    split_ifs <;> omega
  calc 16777216 = 8388608 * 2 := by norm_num
    _ ≤ _ := Nat.mul_le_mul hm h2P

/-- The exact ceiling of `a / b` does not change when a divisor above `a` is replaced by
another divisor above `a`, or is kept. -/
theorem ceil_castFloat_divisor {a s : Nat} (ha : a < 16777216) :
    (a + castFloat s - 1) / castFloat s = (a + s - 1) / s := by
  by_cases h : s < 16777216
  · rw [castFloat_small h]
  · have hS := castFloat_large (show 16777216 ≤ s by omega)
    by_cases ha0 : a = 0
    · subst ha0
      rw [Nat.div_eq_of_lt (by omega), Nat.div_eq_of_lt (by omega)]
    · have e1 : (a + castFloat s - 1) / castFloat s = 1 :=
        Nat.div_eq_of_lt_le (by omega) (by omega)
      have e2 : (a + s - 1) / s = 1 := Nat.div_eq_of_lt_le (by omega) (by omega)
      rw [e1, e2]

/-- The `full` extent for a numerator below `2 ^ 24`: one more than the exact ceiling. -/
theorem fullExtent_small {d p k s : Nat} (hs : 0 < s) (hk : k ≤ d + 2 * p)
    (hp : d + 2 * p < 4294967296) (hn : d + 2 * p - k < 16777216) :
    fullExtent d p k s = .ok (1 + (d + 2 * p - k + s - 1) / s) := by
  have hc : (d + 2 * p - k + s - 1) / s ≤ d + 2 * p - k := by
    by_cases h0 : d + 2 * p - k = 0
    · rw [h0, Nat.div_eq_of_lt (by omega)]
    · calc (d + 2 * p - k + s - 1) / s ≤ ((d + 2 * p - k) * s) / s := by
            apply Nat.div_le_div_right
            have : d + 2 * p - k ≤ (d + 2 * p - k) * s := Nat.le_mul_of_pos_right _ hs
            have : s ≤ (d + 2 * p - k) * s := Nat.le_mul_of_pos_left _ (by omega)
            have e : (d + 2 * p - k) * s = (d + 2 * p - k - 1) * s + s := by
              conv_lhs => rw [show d + 2 * p - k = (d + 2 * p - k - 1) + 1 by omega]
              ring
            have : d + 2 * p - k - 1 ≤ (d + 2 * p - k - 1) * s :=
              Nat.le_mul_of_pos_right _ hs
            omega
        _ = d + 2 * p - k := Nat.mul_div_cancel _ hs
  unfold fullExtent
  rw [if_neg (by omega), paddedExtent_of_lt hp, usub_of_le hp hk, castFloat_small hn]
  have hS : 0 < castFloat s := by
    by_cases h : s < 16777216
    · rw [castFloat_small h]; exact hs
    · have := castFloat_large (show 16777216 ≤ s by omega)
      omega
  simp only
  rw [fceil_fdiv_small hn hS, ceil_castFloat_divisor hn]
  rw [if_neg (by unfold intMax; omega), wrap_of_lt (by omega)]

/-- The exact rational ceiling of `a / s`, computed on natural numbers. -/
theorem ceil_rat_eq {a s : Nat} (hs : 0 < s) :
    ⌈(a : ℚ) / (s : ℚ)⌉ = (((a + s - 1) / s : Nat) : Int) := by
  have hsq : (0 : ℚ) < s := by exact_mod_cast hs
  have h1 : (a + s - 1) / s * s ≤ a + s - 1 := Nat.div_mul_le_self _ _
  have h2 : a + s - 1 < s * ((a + s - 1) / s + 1) := Nat.lt_mul_div_succ _ hs
  generalize (a + s - 1) / s = c at *
  rw [Int.ceil_eq_iff]
  constructor
  · rw [lt_div_iff₀ hsq]
    push_cast
    have e : s * (c + 1) = c * s + s := by ring
    by_cases hc : c = 0
    · subst hc
      simp only [Nat.cast_zero, zero_sub]
      have : (0 : ℚ) ≤ a := by exact_mod_cast Nat.zero_le a
      nlinarith
    · have h3 : c * s + 1 ≤ a + s := by
        have : 0 < c * s := Nat.mul_pos (Nat.pos_of_ne_zero hc) hs
        omega
      have h4 : ((c * s + 1 : Nat) : ℚ) ≤ ((a + s : Nat) : ℚ) := by exact_mod_cast h3
      push_cast at h4
      linarith
  · rw [div_le_iff₀ hsq]
    have e : s * (c + 1) = c * s + s := by ring
    have h3 : a ≤ c * s := by omega
    exact_mod_cast h3

/-! ## The `full` convention with a 2-D kernel -/

/-- The `full` convention on a 4-D input whose numerators are below `2 ^ 24`. -/
theorem InferShape_full_2d_eq (n c h w k0 k1 s0 s1 p0 p1 : Nat) (pool_type : Int)
    (out_shape : List TShape) (hs0 : 0 < s0) (hs1 : 0 < s1)
    (hk0 : k0 ≤ h + 2 * p0) (hk1 : k1 ≤ w + 2 * p1)
    (hp0 : h + 2 * p0 < 4294967296) (hp1 : w + 2 * p1 < 4294967296)
    (hn0 : h + 2 * p0 - k0 < 16777216) (hn1 : w + 2 * p1 - k1 < 16777216) :
    InferShape ⟨[k0, k1], [s0, s1], [p0, p1], pool_type, pool_enum.kFull, false⟩
        [[n, c, h, w]] out_shape
      = .ok (true, [[n, c, 1 + (h + 2 * p0 - k0 + s0 - 1) / s0,
          1 + (w + 2 * p1 - k1 + s1 - 1) / s1]]) := by
  rw [InferShape_kernel2 ⟨[k0, k1], [s0, s1], [p0, p1], pool_type, pool_enum.kFull, false⟩
    n c h w out_shape rfl rfl]
  simp only [andThen, kernelFits, setFull, index, bind, Except.bind, pure, Except.pure]
  simp only [List.getElem?_cons_zero, List.getElem?_cons_succ, paddedExtent_of_lt hp0,
    paddedExtent_of_lt hp1, fullExtent_small hs0 hk0 hp0 hn0, fullExtent_small hs1 hk1 hp1 hn1]
  simp [hk0, hk1, pool_enum.kValid, pool_enum.kFull]

/-- C7, amended to numerators that single precision holds exactly: with a 2-D kernel,
`global_pool` off and the `full` convention, for a 4-D input accepted by the kernel check,
strides of at least `1`, no wrap-around in `in + 2*pad`, and numerators `in + 2*pad - kernel`
below `2 ^ 24`, inference succeeds and each spatial output extent equals
`1 + ceil((in + 2*pad - kernel) / stride)` with the exact rational ceiling. -/
theorem InferShape_full_2d_exact (n c h w k0 k1 s0 s1 p0 p1 : Nat) (pool_type : Int)
    (out_shape : List TShape) (hs0 : 1 ≤ s0) (hs1 : 1 ≤ s1)
    (hk0 : k0 ≤ h + 2 * p0) (hk1 : k1 ≤ w + 2 * p1)
    (hp0 : h + 2 * p0 < 2 ^ 32) (hp1 : w + 2 * p1 < 2 ^ 32)
    (hn0 : h + 2 * p0 - k0 < 2 ^ 24) (hn1 : w + 2 * p1 - k1 < 2 ^ 24) :
    ∃ o2 o3 : Nat,
      InferShape ⟨[k0, k1], [s0, s1], [p0, p1], pool_type, pool_enum.kFull, false⟩
          [[n, c, h, w]] out_shape = .ok (true, [[n, c, o2, o3]])
      ∧ (o2 : Int) = 1 + ⌈((h : ℚ) + 2 * p0 - k0) / s0⌉
      ∧ (o3 : Int) = 1 + ⌈((w : ℚ) + 2 * p1 - k1) / s1⌉ := by
  refine ⟨_, _, InferShape_full_2d_eq n c h w k0 k1 s0 s1 p0 p1 pool_type out_shape hs0 hs1
    hk0 hk1 hp0 hp1 hn0 hn1, ?_, ?_⟩
  · have e : ((h : ℚ) + 2 * p0 - k0) = ((h + 2 * p0 - k0 : Nat) : ℚ) := by
      push_cast [Nat.cast_sub hk0]
      ring
    rw [e, ceil_rat_eq hs0]
    push_cast
    ring
  · have e : ((w : ℚ) + 2 * p1 - k1) = ((w + 2 * p1 - k1 : Nat) : ℚ) := by
      push_cast [Nat.cast_sub hk1]
      ring
    rw [e, ceil_rat_eq hs1]
    push_cast
    ring

/-- An instance of the amended C7: kernel `(3,3)`, stride `(2,2)`, pad `(1,1)` on
`(1,3,4,4)`. -/
theorem InferShape_full_2d_exact_witness :
    ∃ o2 o3 : Nat,
      InferShape ⟨[3, 3], [2, 2], [1, 1], pool_enum.kMaxPooling, pool_enum.kFull, false⟩
          [[1, 3, 4, 4]] [] = .ok (true, [[1, 3, o2, o3]])
      ∧ (o2 : Int) = 1 + ⌈(((4 : Nat) : ℚ) + 2 * (1 : Nat) - (3 : Nat)) / (2 : Nat)⌉
      ∧ (o3 : Int) = 1 + ⌈(((4 : Nat) : ℚ) + 2 * (1 : Nat) - (3 : Nat)) / (2 : Nat)⌉ :=
  InferShape_full_2d_exact 1 3 4 4 3 3 2 2 1 1 pool_enum.kMaxPooling [] (by decide)
    (by decide) (by decide) (by decide) (by decide) (by decide) (by decide) (by decide)

/-- C7, as stated, fails above `2 ^ 24`: for the input `(1,1,16777218,16777218)` with kernel
`(1,1)`, stride `(1,1)` and pad `(0,0)` the numerator `16777217` is not a single-precision
value, the cast rounds it to `16777216`, and the inferred extent is `16777217`, while
`1 + ceil((16777218 + 2*0 - 1) / 1)` is `16777218`. -/
theorem InferShape_full_2d_inexact :
    InferShape ⟨[1, 1], [1, 1], [0, 0], pool_enum.kMaxPooling, pool_enum.kFull, false⟩
        [[1, 1, 16777218, 16777218]] [] = .ok (true, [[1, 1, 16777217, 16777217]])
    ∧ ((16777217 : Nat) : Int) ≠ 1 + ⌈((16777218 : ℚ) + 2 * 0 - 1) / 1⌉ := by
  refine ⟨by decide, ?_⟩
  have e : ((16777218 : ℚ) + 2 * 0 - 1) / 1 = ((16777217 : Int) : ℚ) := by norm_num
  rw [e, Int.ceil_intCast]
  decide

/-! ## Type inference -/

/-- C8. On a single-element input type list `[t]`, `InferType` fails exactly when `t` is the
unknown sentinel `-1`, and the failure is the fatal error; for every other `t` it returns
true with the output types set to exactly `[t]` and the input types left as `[t]`, whatever
the output list held before. -/
theorem InferType_single (t : Int) (out_type : List Int) :
    ((∃ f, InferType [t] out_type = .error f) ↔ t = -1)
    ∧ (t = -1 → InferType [t] out_type = .error (.fatal .inputTypeNotSpecified))
    ∧ (t ≠ -1 → InferType [t] out_type = .ok (true, [t], [t])) := by
  by_cases ht : t = -1
  · simp [InferType, ht]
  · simp [InferType, ht]

/-! ## Rank validation -/

/-- A call of `InferShape` that returns, returns true. -/
theorem InferShape_ok_flag {param_ : PoolingParam} {in_shape out_shape : List TShape} {b : Bool}
    {r : List TShape} (h : InferShape param_ in_shape out_shape = .ok (b, r)) : b = true := by
  unfold InferShape at h
  simp only [bind, Except.bind, pure, Except.pure, throw, throwThe, MonadExceptOf.throw] at h
  repeat' split at h
  all_goals first
    | omega
    | (cases h <;> rfl)

/-- A call of `InferShape` with a kernel of rank 2 or 3 that returns was given an input of
rank `kernel rank + 2`. -/
theorem InferShape_ok_rank {param_ : PoolingParam} {dshape : TShape} {out_shape : List TShape}
    {r : Bool × List TShape} (hk : param_.kernel.length = 2 ∨ param_.kernel.length = 3)
    (h : InferShape param_ [dshape] out_shape = .ok r) :
    dshape.length = param_.kernel.length + 2 := by
  unfold InferShape at h
  simp only [bind, Except.bind, pure, Except.pure, throw, throwThe, MonadExceptOf.throw] at h
  repeat' split at h
  all_goals first
    | omega
    | cases h

/-- C9. For an input shape of rank below `4`, rank `0` included, `InferShape` ends in the
fatal rank error; no call returns false; with a kernel of rank `2` or `3` a call that returns
has an input of rank `kernel rank + 2`, and a 5-D input with a 2-D kernel or a 4-D input with
a 3-D kernel is a fatal error. -/
theorem InferShape_rank_validation (param_ : PoolingParam) (dshape : TShape)
    (in_shape out_shape : List TShape) :
    (dshape.length < 4 →
        InferShape param_ [dshape] out_shape = .error (.fatal .ndimAtLeast4))
    ∧ (∀ r, InferShape param_ in_shape out_shape ≠ .ok (false, r))
    ∧ (param_.kernel.length = 2 ∨ param_.kernel.length = 3 →
        ∀ r, InferShape param_ [dshape] out_shape = .ok r →
          dshape.length = param_.kernel.length + 2)
    ∧ (param_.kernel.length = 2 → dshape.length = 5 →
        InferShape param_ [dshape] out_shape = .error (.fatal .ndimIs4))
    ∧ (param_.kernel.length = 3 → dshape.length = 4 →
        InferShape param_ [dshape] out_shape = .error (.fatal .ndimIs5)) := by
  refine ⟨fun hd => ?_, fun r hr => ?_, fun hk r hr => InferShape_ok_rank hk hr,
    fun hk hd => ?_, fun hk hd => ?_⟩
  · simp [InferShape, hd]
  · exact Bool.false_ne_true (InferShape_ok_flag hr)
  · simp [InferShape, hk, hd]
  · simp [InferShape, hk, hd]

/-! ## The result of a successful call -/

/-- C10 at a failing input: for a kernel of rank `1` on the 4-D input `(1,1,4,4)` neither
branch of `InferShape` runs; it returns true and leaves `out_shape` as it was, here empty. -/
theorem InferShape_kernel_rank1_no_shape :
    InferShape ⟨[2], [1, 1], [0, 0], pool_enum.kMaxPooling, pool_enum.kValid, false⟩
        [[1, 1, 4, 4]] []
      = .ok (true, []) := by
  decide

/-! ## The choice of the operator -/

/-- C17. With the accelerated backend compiled in, `CreateOp<cpu>` returns `MKLPoolingOp`
exactly when the pooling type is max or avg, `UseMKLPooling` holds and the type is `float32` or
`float64`, and then it is instantiated for that element type. In every other case with a real
element type (and a pooling type among max, avg and sum) it returns the generic `PoolingOp` for
the element type, with the reducer `maximum` for max pooling and `sum` for avg and sum pooling.
Without the backend it returns the generic operator. -/
theorem CreateOp_pooling_selection
    (UseMKLPooling : PoolingParam → List TShape → List TShape → Bool) (param : PoolingParam)
    (dtype : Int) (in_shape out_shape : List TShape) :
    ((∃ T, pooling.CreateOp true UseMKLPooling param dtype in_shape out_shape
          = .ok (.MKLPoolingOp T param))
      ↔ (param.pool_type = pool_enum.kMaxPooling ∨ param.pool_type = pool_enum.kAvgPooling)
        ∧ UseMKLPooling param in_shape out_shape = true
        ∧ (dtype = mshadow.kFloat32 ∨ dtype = mshadow.kFloat64))
    ∧ ((param.pool_type = pool_enum.kMaxPooling ∨ param.pool_type = pool_enum.kAvgPooling)
        ∧ UseMKLPooling param in_shape out_shape = true
        ∧ (dtype = mshadow.kFloat32 ∨ dtype = mshadow.kFloat64) →
      pooling.CreateOp true UseMKLPooling param dtype in_shape out_shape
        = .ok (.MKLPoolingOp (if dtype = mshadow.kFloat32 then .float else .double) param))
    ∧ (param.pool_type = pool_enum.kMaxPooling ∨ param.pool_type = pool_enum.kAvgPooling
        ∨ param.pool_type = pool_enum.kSumPooling →
      dtype = mshadow.kFloat32 ∨ dtype = mshadow.kFloat64 ∨ dtype = mshadow.kFloat16 →
      (¬ ((param.pool_type = pool_enum.kMaxPooling ∨ param.pool_type = pool_enum.kAvgPooling)
          ∧ UseMKLPooling param in_shape out_shape = true
          ∧ (dtype = mshadow.kFloat32 ∨ dtype = mshadow.kFloat64)) →
        pooling.CreateOp true UseMKLPooling param dtype in_shape out_shape
          = .ok (.PoolingOp
              (if param.pool_type = pool_enum.kMaxPooling then .maximum else .sum)
              (if dtype = mshadow.kFloat32 then .float
                else if dtype = mshadow.kFloat64 then .double else .half_t) param))
      ∧ pooling.CreateOp false UseMKLPooling param dtype in_shape out_shape
        = .ok (.PoolingOp
            (if param.pool_type = pool_enum.kMaxPooling then .maximum else .sum)
            (if dtype = mshadow.kFloat32 then .float
              else if dtype = mshadow.kFloat64 then .double else .half_t) param)) := by
  refine ⟨?_, ?_, ?_⟩
  · by_cases hu : UseMKLPooling param in_shape out_shape = true <;>
      by_cases h0 : param.pool_type = 0 <;> by_cases h1 : param.pool_type = 1 <;>
      by_cases h2 : param.pool_type = 2 <;>
      by_cases d0 : dtype = 0 <;> by_cases d1 : dtype = 1 <;> by_cases d2 : dtype = 2 <;>
      simp [pooling.CreateOp, MSHADOW_REAL_TYPE_SWITCH, hu, h0, h1, h2, d0, d1, d2,
        pool_enum.kMaxPooling, pool_enum.kAvgPooling, pool_enum.kSumPooling, mshadow.kFloat32,
        mshadow.kFloat64, mshadow.kFloat16]
  · rintro ⟨hp | hp, hu, hd | hd⟩ <;>
      simp [pooling.CreateOp, hp, hu, hd, pool_enum.kMaxPooling, pool_enum.kAvgPooling,
        mshadow.kFloat32, mshadow.kFloat64]
  · intro hpool hreal
    rcases hpool with hp | hp | hp <;> rcases hreal with hd | hd | hd <;>
      by_cases hu : UseMKLPooling param in_shape out_shape = true <;>
      simp [pooling.CreateOp, MSHADOW_REAL_TYPE_SWITCH, hp, hd, hu, pool_enum.kMaxPooling,
        pool_enum.kAvgPooling, pool_enum.kSumPooling, mshadow.kFloat32, mshadow.kFloat64,
        mshadow.kFloat16]

/-- An accelerated case of C17: max pooling on `float64` data with the predicate true; without
the backend the same call gives the generic operator. -/
theorem CreateOp_pooling_selection_witness :
    pooling.CreateOp true (fun _ _ _ => true)
        ⟨[2, 2], [2, 2], [0, 0], pool_enum.kMaxPooling, pool_enum.kValid, false⟩
        mshadow.kFloat64 [[1, 3, 4, 4]] [[1, 3, 2, 2]]
      = .ok (.MKLPoolingOp .double
          ⟨[2, 2], [2, 2], [0, 0], pool_enum.kMaxPooling, pool_enum.kValid, false⟩)
    ∧ pooling.CreateOp false (fun _ _ _ => true)
        ⟨[2, 2], [2, 2], [0, 0], pool_enum.kMaxPooling, pool_enum.kValid, false⟩
        mshadow.kFloat64 [[1, 3, 4, 4]] [[1, 3, 2, 2]]
      = .ok (.PoolingOp .maximum .double
          ⟨[2, 2], [2, 2], [0, 0], pool_enum.kMaxPooling, pool_enum.kValid, false⟩) :=
  ⟨((CreateOp_pooling_selection (fun _ _ _ => true)
      ⟨[2, 2], [2, 2], [0, 0], pool_enum.kMaxPooling, pool_enum.kValid, false⟩
      mshadow.kFloat64 [[1, 3, 4, 4]] [[1, 3, 2, 2]]).2.1 (by decide)).trans (by decide),
    (((CreateOp_pooling_selection (fun _ _ _ => true)
      ⟨[2, 2], [2, 2], [0, 0], pool_enum.kMaxPooling, pool_enum.kValid, false⟩
      mshadow.kFloat64 [[1, 3, 4, 4]] [[1, 3, 2, 2]]).2.2 (by decide) (by decide)).2).trans
      (by decide)⟩

/-- C18. For a type code that is none of `float32`, `float64` and `float16`, the pooling and
the activation `CreateOp<cpu>` end in the fatal error of the real-type switch and construct no
operator, for every parameter value, with and without the accelerated backend. -/
theorem CreateOp_unsupported_dtype (MXNET_USE_MKL2017 : Bool)
    (UseMKLPooling : PoolingParam → List TShape → List TShape → Bool) (param : PoolingParam)
    (act : activation.ActivationParam) (dtype : Int) (in_shape out_shape : List TShape)
    (h32 : dtype ≠ mshadow.kFloat32) (h64 : dtype ≠ mshadow.kFloat64)
    (h16 : dtype ≠ mshadow.kFloat16) :
    pooling.CreateOp MXNET_USE_MKL2017 UseMKLPooling param dtype in_shape out_shape
      = .error (.fatal .notRealType)
    ∧ activation.CreateOp MXNET_USE_MKL2017 act dtype = .error (.fatal .notRealType) := by
  constructor
  · unfold pooling.CreateOp MSHADOW_REAL_TYPE_SWITCH
    simp only [h32, h64, h16, if_false]
    split_ifs <;> rfl
  · unfold activation.CreateOp MSHADOW_REAL_TYPE_SWITCH
    simp only [h32, h64, h16, if_false]
    split_ifs <;> rfl

/-- The type code `4` (a 32-bit integer in mshadow) for C18, with the backend compiled in and
parameters that would otherwise select the accelerated operators. -/
theorem CreateOp_unsupported_dtype_witness :
    pooling.CreateOp true (fun _ _ _ => true)
        ⟨[2, 2], [2, 2], [0, 0], pool_enum.kMaxPooling, pool_enum.kValid, false⟩
        4 [[1, 3, 4, 4]] [[1, 3, 2, 2]]
      = .error (.fatal .notRealType)
    ∧ activation.CreateOp true ⟨activation.kReLU⟩ 4 = .error (.fatal .notRealType) :=
  CreateOp_unsupported_dtype true (fun _ _ _ => true)
    ⟨[2, 2], [2, 2], [0, 0], pool_enum.kMaxPooling, pool_enum.kValid, false⟩
    ⟨activation.kReLU⟩ 4 [[1, 3, 4, 4]] [[1, 3, 2, 2]] (by decide) (by decide) (by decide)

/-! ## The portable layout of the accelerated ReLU operator -/

/-- The arrays built by the loop of `LayerSetUp` when no product wraps around. -/
theorem sizesAndStrides_dense {n c h w : Nat} (hh : h < 4294967296) (hw : w < 4294967296)
    (hsize : w * h * c < 18446744073709551616) :
    MKLReluOp.sizesAndStrides ⟨n, c, h, w⟩ 4 = ([w, h, c, n], [1, w, w * h, w * h * c]) := by
  have h1 : w % sizeMod = w := Nat.mod_eq_of_lt (by unfold sizeMod; omega)
  have h2 : w * h % sizeMod = w * h := by
    apply Nat.mod_eq_of_lt
    unfold sizeMod
    calc w * h ≤ 4294967295 * 4294967295 := Nat.mul_le_mul (by omega) (by omega)
      _ < 18446744073709551616 := by norm_num
  have h3 : w * h * c % sizeMod = w * h * c := Nat.mod_eq_of_lt (by unfold sizeMod; omega)
  simp [MKLReluOp.sizesAndStrides, MKLReluOp.loopBody, List.range, List.range.loop, Shape4.get,
    h1, h2, h3]

/-- C19. For the shape `(n, c, h, w)` of a tensor held in memory (extents of 32 bits, `n` at
least 1 and fewer than `2 ^ 64` elements), the loop of `LayerSetUp` builds the sizes
`(w, h, c, n)` and the strides `(1, w, w*h, w*h*c)`, and `LayerSetUp` passes the dimension count
4 with these sizes and strides to `create_user_layout` of the four descriptors, in the order
forward input, forward output, backward input-gradient, backward output-gradient; what follows
the four calls is the release of the arrays. On its first call `Forward` views a 2-D input
`(a, b)` with the shape `(a, b, 1, 1)` and runs `LayerSetUp` on that view once the views of the
input and of the output blob are made; for an input of another rank it runs `LayerSetUp` on the
4-D view of the input. -/
theorem LayerSetUp_dense_layout {σ : Type} (B : Backend σ) (this : MKLReluOp)
    (n c h w a b : Nat) (s : σ) (hn : 0 < n) (hh : h < 4294967296) (hw : w < 4294967296)
    (hstore : n * c * h * w < 18446744073709551616) :
    MKLReluOp.sizesAndStrides ⟨n, c, h, w⟩ 4 = ([w, h, c, n], [1, w, w * h, w * h * c])
    ∧ MKLReluOp.LayerSetUp_layouts B this ⟨n, c, h, w⟩ s
      = (do
        let r1 ← this.fwd_bottom_data_.create_user_layout B 4 [w, h, c, n]
          [1, w, w * h, w * h * c] s
        let r2 ← this.fwd_top_data_.create_user_layout B 4 [w, h, c, n]
          [1, w, w * h, w * h * c] r1.2
        let r3 ← this.bwd_bottom_diff_.create_user_layout B 4 [w, h, c, n]
          [1, w, w * h, w * h * c] r2.2
        let r4 ← this.bwd_top_diff_.create_user_layout B 4 [w, h, c, n]
          [1, w, w * h, w * h * c] r3.2
        pure ({ this with
            fwd_bottom_data_ := r1.1, fwd_top_data_ := r2.1,
            bwd_bottom_diff_ := r3.1, bwd_top_diff_ := r4.1 }, r4.2))
    ∧ (∀ out : Shape4, MKLReluOp.LayerSetUp B this ⟨n, c, h, w⟩ out s
        = (do
          let _ ← MKLReluOp.LayerSetUp_layouts B this ⟨n, c, h, w⟩ s
          throw .undefinedBehaviour))
    ∧ (∀ (A : TBlobAccess) (in0 out0 : TBlob) (data out : Shape4), in0.shape_ = [a, b] →
      this.init_mkldnn_ = false → A.get_with_shape in0 ⟨a, b, 1, 1⟩ = .ok data →
      A.get_with_shape out0 ⟨a, b, 1, 1⟩ = .ok out →
      MKLReluOp.Forward B A this [in0] [out0] s
        = (do
          let r ← MKLReluOp.LayerSetUp B this data out s
          pure ({ r.1 with init_mkldnn_ := true }, data, out, r.2)))
    ∧ (∀ (A : TBlobAccess) (in0 out0 : TBlob) (data out : Shape4), in0.shape_.length ≠ 2 →
      this.init_mkldnn_ = false → A.get in0 = .ok data → A.get out0 = .ok out →
      MKLReluOp.Forward B A this [in0] [out0] s
        = (do
          let r ← MKLReluOp.LayerSetUp B this data out s
          pure ({ r.1 with init_mkldnn_ := true }, data, out, r.2))) := by
  have hsize : w * h * c < 18446744073709551616 := by
    have h1 : w * h * c ≤ n * (w * h * c) := Nat.le_mul_of_pos_left _ hn
    have h2 : n * (w * h * c) = n * c * h * w := by ring
    omega
  refine ⟨sizesAndStrides_dense hh hw hsize, ?_, fun out => rfl, ?_, ?_⟩
  · simp only [MKLReluOp.LayerSetUp_layouts, sizesAndStrides_dense (n := n) hh hw hsize]
  · intro A in0 out0 data out hs hi hd ho
    simp [MKLReluOp.Forward, hs, hi, hd, ho, index, bind, Except.bind, pure, Except.pure]
  · intro A in0 out0 data out hs hi hd ho
    simp [MKLReluOp.Forward, hs, hi, hd, ho, bind, Except.bind, pure, Except.pure]

/-- The shape `(2, 3, 5, 7)` for C19, on the reference backend: the four layouts are created
with the sizes `(7, 5, 3, 2)` and the strides `(1, 7, 35, 105)`. -/
theorem LayerSetUp_dense_layout_witness :
    MKLReluOp.sizesAndStrides ⟨2, 3, 5, 7⟩ 4 = ([7, 5, 3, 2], [1, 7, 7 * 5, 7 * 5 * 3])
    ∧ (MKLReluOp.LayerSetUp_layouts Mkl.backend
        ⟨false, .fresh, .fresh, .fresh, .fresh⟩ ⟨2, 3, 5, 7⟩ (Mkl.start [])).map
          (fun r => r.2.layouts)
      = .ok [(4, [7, 5, 3, 2, 1, 7, 35, 105]), (3, [7, 5, 3, 2, 1, 7, 35, 105]),
          (2, [7, 5, 3, 2, 1, 7, 35, 105]), (1, [7, 5, 3, 2, 1, 7, 35, 105])] :=
  ⟨(LayerSetUp_dense_layout Mkl.backend ⟨false, .fresh, .fresh, .fresh, .fresh⟩ 2 3 5 7 2 3
      (Mkl.start []) (by decide) (by decide) (by decide) (by decide)).1,
    by decide⟩

end op

/-! ## The conversion primitives after a change of layout -/

/-- C11 at a failing input. On a fresh descriptor, `create_user_layout` with extents `(4, 4)`
and strides `(1, 4)` and `create_internal_layout` from primitive `101` (strides `(4, 1)`) give
incompatible layouts, and `convert_to_int` holds the primitive `3`. A second
`create_internal_layout`, from primitive `100` (strides `(1, 4)`), makes the layouts
compatible: `create_conversions` passes the two primitives to `dnnDelete` and leaves the
pointers as they are, so `convert_to_int` still holds `3` and conversion is still reported as
needed. -/
theorem create_conversions_keeps_deleted_handle :
    (do
      let r ← MKLMemoryDescriptorBase.fresh.create_user_layout Mkl.backend 2 [4, 4] [1, 4]
        (Mkl.start [])
      let r ← r.1.create_internal_layout Mkl.backend (some 101) 0 r.2
      pure (r.1.convert_to_int, Mkl.backend.dnnLayoutCompare r.1.layout_usr r.1.layout_int r.2)
      : Except op.Failure (Option Nat × Bool)) = .ok (some 3, false)
    ∧ (do
      let r ← MKLMemoryDescriptorBase.fresh.create_user_layout Mkl.backend 2 [4, 4] [1, 4]
        (Mkl.start [])
      let r ← r.1.create_internal_layout Mkl.backend (some 101) 0 r.2
      let r ← r.1.create_internal_layout Mkl.backend (some 100) 0 r.2
      pure (r.1.layout_usr, r.1.layout_int, r.1.convert_to_int,
        Mkl.backend.dnnLayoutCompare r.1.layout_usr r.1.layout_int r.2)
      : Except op.Failure (Option Nat × Option Nat × Option Nat × Bool))
        = .ok (some 1, some 5, some 3, true) := by
  decide

/-- C12 at a failing input. After the three calls of C11 the descriptor holds the primitives
`3` and `4`, and both have been passed to `dnnDelete`. One more `create_internal_layout`
passes the same two handles to `dnnDelete` a second time. -/
theorem create_conversions_deletes_twice :
    (do
      let r ← MKLMemoryDescriptorBase.fresh.create_user_layout Mkl.backend 2 [4, 4] [1, 4]
        (Mkl.start [])
      let r ← r.1.create_internal_layout Mkl.backend (some 101) 0 r.2
      let r ← r.1.create_internal_layout Mkl.backend (some 100) 0 r.2
      pure (r.1.convert_to_int, r.1.convert_from_int, r.2.deleted)
      : Except op.Failure (Option Nat × Option Nat × List (Option Nat)))
        = .ok (some 3, some 4, [some 3, some 4])
    ∧ (do
      let r ← MKLMemoryDescriptorBase.fresh.create_user_layout Mkl.backend 2 [4, 4] [1, 4]
        (Mkl.start [])
      let r ← r.1.create_internal_layout Mkl.backend (some 101) 0 r.2
      let r ← r.1.create_internal_layout Mkl.backend (some 100) 0 r.2
      let r ← r.1.create_internal_layout Mkl.backend (some 100) 0 r.2
      pure (r.1.convert_to_int, r.1.convert_from_int, r.2.deleted)
      : Except op.Failure (Option Nat × Option Nat × List (Option Nat)))
        = .ok (some 3, some 4, [some 3, some 4, some 3, some 4]) := by
  decide

/-! ## The buffer handed to the accelerated kernel -/

/-- C13, amended. `get_converted_prv` returns `cpu_ptr` and leaves everything as it is when no
to-internal primitive is held. When one is held and an upstream descriptor is supplied, it
returns the accelerated buffer of the upstream descriptor, whatever the layouts are. When one
is held and no upstream descriptor is supplied, it allocates the accelerated buffer of this
descriptor, runs `convert_to_prv(cpu_ptr)` and returns that buffer. -/
theorem get_converted_prv_three_way {σ : Type} (B : Backend σ) (this : MKLMemoryDescriptor)
    (cpu_ptr : Option Nat) (set_prv_ptr : Bool) (holder : Option Nat)
    (converted_in_fwd : Option MKLMemoryDescriptor) (s : σ) :
    (this.convert_to_int = none →
      MKLMemoryDescriptor.get_converted_prv B this cpu_ptr set_prv_ptr holder converted_in_fwd s
        = .ok (cpu_ptr, this, s))
    ∧ (∀ fwd : MKLMemoryDescriptor, this.convert_to_int ≠ none → converted_in_fwd = some fwd →
      MKLMemoryDescriptor.get_converted_prv B this cpu_ptr set_prv_ptr holder converted_in_fwd s
        = .ok (fwd.internal_ptr, this, s))
    ∧ (this.convert_to_int ≠ none → converted_in_fwd = none →
      MKLMemoryDescriptor.get_converted_prv B this cpu_ptr set_prv_ptr holder converted_in_fwd s
        = (do
          let r ← this.allocate B s
          let s ← r.1.convert_to_prv B cpu_ptr r.2
          pure (r.1.internal_ptr, r.1, s))) := by
  refine ⟨fun h => ?_, fun fwd h hf => ?_, fun h hf => ?_⟩
  · simp [MKLMemoryDescriptor.get_converted_prv, h]
  · simp [MKLMemoryDescriptor.get_converted_prv, h, hf]
  · simp [MKLMemoryDescriptor.get_converted_prv, h, hf]

/-- C13, as stated, fails. The descriptor `(layout_usr 2, layout_int 1, convert_to_int 3)` has
an internal layout with strides `(4, 1)`; the upstream descriptor has the internal layout `5`
with strides `(1, 4)` and the buffer `6`. `layout_compare` reports the two internal layouts as
different, and `get_converted_prv` still returns the upstream buffer `6`: it allocates nothing
and executes no conversion. -/
theorem get_converted_prv_skips_layout_compare :
    MKLMemoryDescriptorBase.layout_compare Mkl.backend ⟨some 2, some 1, some 3, some 4, none⟩
        ⟨.PRV_DESCR_MKL2017, ⟨none, some 5, none, none, some 6⟩⟩
        ⟨[], 7, [(5, [4, 4, 1, 4]), (2, [4, 4, 1, 4]), (1, [4, 4, 4, 1])], [], [], []⟩
      = .ok false
    ∧ MKLMemoryDescriptor.get_converted_prv Mkl.backend ⟨some 2, some 1, some 3, some 4, none⟩
        (some 1000) false none (some ⟨none, some 5, none, none, some 6⟩)
        ⟨[], 7, [(5, [4, 4, 1, 4]), (2, [4, 4, 1, 4]), (1, [4, 4, 4, 1])], [], [], []⟩
      = .ok (some 6, ⟨some 2, some 1, some 3, some 4, none⟩,
          ⟨[], 7, [(5, [4, 4, 1, 4]), (2, [4, 4, 1, 4]), (1, [4, 4, 4, 1])], [], [], []⟩) := by
  decide

/-- C14. When no to-internal primitive is held, or an upstream descriptor with an equivalent
internal layout is supplied, `get_converted_prv` returns normally with the descriptor and the
state of the backend unchanged, so nothing is allocated and no primitive is executed. It
returns `cpu_ptr` when no primitive is held and the upstream buffer otherwise. -/
theorem get_converted_prv_leaves_backend {σ : Type} (B : Backend σ) (this : MKLMemoryDescriptor)
    (cpu_ptr : Option Nat) (set_prv_ptr : Bool) (holder : Option Nat)
    (converted_in_fwd : Option MKLMemoryDescriptor) (s : σ)
    (h : this.convert_to_int = none ∨ ∃ fwd : MKLMemoryDescriptor, converted_in_fwd = some fwd
      ∧ this.layout_compare B ⟨.PRV_DESCR_MKL2017, fwd⟩ s = .ok true) :
    MKLMemoryDescriptor.get_converted_prv B this cpu_ptr set_prv_ptr holder converted_in_fwd s
      = .ok (if this.convert_to_int = none then cpu_ptr
          else converted_in_fwd.bind fun fwd => fwd.internal_ptr, this, s) := by
  by_cases hc : this.convert_to_int = none
  · simp [MKLMemoryDescriptor.get_converted_prv, hc]
  · rcases h with h | ⟨fwd, hf, -⟩
    · exact absurd h hc
    · simp [MKLMemoryDescriptor.get_converted_prv, hc, hf]

/-- A chained call for C14: the descriptor holds the primitive `3`, the upstream descriptor
has an internal layout with the same strides and the buffer `6`; the call returns `6` and the
backend is as before. -/
theorem get_converted_prv_leaves_backend_witness :
    MKLMemoryDescriptorBase.layout_compare Mkl.backend ⟨some 2, some 1, some 3, some 4, none⟩
        ⟨.PRV_DESCR_MKL2017, ⟨none, some 5, none, none, some 6⟩⟩
        ⟨[], 7, [(5, [4, 4, 4, 1]), (2, [4, 4, 1, 4]), (1, [4, 4, 4, 1])], [], [], []⟩
      = .ok true
    ∧ MKLMemoryDescriptor.get_converted_prv Mkl.backend ⟨some 2, some 1, some 3, some 4, none⟩
        (some 1000) false none (some ⟨none, some 5, none, none, some 6⟩)
        ⟨[], 7, [(5, [4, 4, 4, 1]), (2, [4, 4, 1, 4]), (1, [4, 4, 4, 1])], [], [], []⟩
      = .ok (some 6, ⟨some 2, some 1, some 3, some 4, none⟩,
          ⟨[], 7, [(5, [4, 4, 4, 1]), (2, [4, 4, 1, 4]), (1, [4, 4, 4, 1])], [], [], []⟩) :=
  ⟨by decide, (get_converted_prv_leaves_backend Mkl.backend _ _ _ _ _ _
    (Or.inr ⟨_, rfl, by decide⟩)).trans (by decide)⟩

/-! ## Running a conversion -/

/-- C15, amended. With a non-null buffer argument, `convert_to_prv` ends with the failed check
`CHECK(this->convert_to_int)` when the to-internal primitive is absent: it builds nothing.
When the primitive is present the call executes it, from `cpu_ptr` to the accelerated buffer,
and fails exactly when the backend reports an execution error. `convert_from_prv` does the same
with the from-internal primitive, from the accelerated buffer to `cpu_ptr`. -/
theorem convert_prv_needs_primitive {σ : Type} (B : Backend σ) (this : MKLMemoryDescriptorBase)
    (cpu_ptr : Option Nat) (s : σ) (hcpu : cpu_ptr ≠ none) :
    (this.convert_to_int = none →
      this.convert_to_prv B cpu_ptr s = .error (.fatal .conversionIsNull))
    ∧ (this.convert_to_int ≠ none →
      this.convert_to_prv B cpu_ptr s
        = if (B.dnnExecute this.convert_to_int cpu_ptr this.internal_ptr s).1 = E_SUCCESS
          then .ok (B.dnnExecute this.convert_to_int cpu_ptr this.internal_ptr s).2
          else .error (.fatal .dnnStatus))
    ∧ (this.convert_from_int = none →
      this.convert_from_prv B cpu_ptr s = .error (.fatal .conversionIsNull))
    ∧ (this.convert_from_int ≠ none →
      this.convert_from_prv B cpu_ptr s
        = if (B.dnnExecute this.convert_from_int this.internal_ptr cpu_ptr s).1 = E_SUCCESS
          then .ok (B.dnnExecute this.convert_from_int this.internal_ptr cpu_ptr s).2
          else .error (.fatal .dnnStatus)) := by
  refine ⟨fun h => ?_, fun h => ?_, fun h => ?_, fun h => ?_⟩
  · simp [MKLMemoryDescriptorBase.convert_to_prv, hcpu, h, bind, Except.bind, throw, throwThe,
      MonadExceptOf.throw, pure, Except.pure]
  · unfold MKLMemoryDescriptorBase.convert_to_prv MKLMemoryDescriptorBase.prv_ptr checkStatus
    by_cases he : (B.dnnExecute this.convert_to_int cpu_ptr this.internal_ptr s).1 = E_SUCCESS
      <;> simp [hcpu, h, he, bind, Except.bind, pure, Except.pure]
  · simp [MKLMemoryDescriptorBase.convert_from_prv, hcpu, h, bind, Except.bind, throw, throwThe,
      MonadExceptOf.throw, pure, Except.pure]
  · unfold MKLMemoryDescriptorBase.convert_from_prv MKLMemoryDescriptorBase.prv_ptr checkStatus
    by_cases he : (B.dnnExecute this.convert_from_int this.internal_ptr cpu_ptr s).1 = E_SUCCESS
      <;> simp [hcpu, h, he, bind, Except.bind, pure, Except.pure]

/-- A call for C15 on the reference backend: the descriptor holds the primitives `3` and `4`
and the buffer `5`, and the buffer argument is `1000`. -/
theorem convert_prv_needs_primitive_witness :
    (some 1000 : Option Nat) ≠ none
    ∧ (⟨some 2, some 1, some 3, some 4, some 5⟩ : MKLMemoryDescriptorBase).convert_to_int ≠ none
    ∧ MKLMemoryDescriptorBase.convert_to_prv Mkl.backend ⟨some 2, some 1, some 3, some 4, some 5⟩
        (some 1000) (Mkl.start [])
      = .ok { Mkl.start [] with executed := [some 3] } :=
  ⟨by decide, by decide,
    ((convert_prv_needs_primitive Mkl.backend ⟨some 2, some 1, some 3, some 4, some 5⟩
      (some 1000) (Mkl.start []) (by decide)).2.1 (by decide)).trans (by decide)⟩

/-- C15, as stated, fails. `create_layouts` from primitive `100` with the user layout
`(4, 4)`, strides `(1, 4)`, sets both layouts; they are compatible and no primitive is built.
With the non-null buffer `1000`, `convert_to_prv` and `convert_from_prv` then end with a failed
check, although every call of the backend reports success. -/
theorem convert_prv_does_not_build :
    MKLMemoryDescriptorBase.fresh.create_layouts Mkl.backend (some 100) 0 2 [4, 4] [1, 4]
        (Mkl.start [])
      = .ok (⟨some 2, some 1, none, none, none⟩,
          { Mkl.start [] with next := 3, layouts := [(2, [4, 4, 1, 4]), (1, [4, 4, 1, 4])] })
    ∧ MKLMemoryDescriptorBase.convert_to_prv Mkl.backend ⟨some 2, some 1, none, none, none⟩
        (some 1000)
        { Mkl.start [] with next := 3, layouts := [(2, [4, 4, 1, 4]), (1, [4, 4, 1, 4])] }
      = .error (.fatal .conversionIsNull)
    ∧ MKLMemoryDescriptorBase.convert_from_prv Mkl.backend ⟨some 2, some 1, none, none, none⟩
        (some 1000)
        { Mkl.start [] with next := 3, layouts := [(2, [4, 4, 1, 4]), (1, [4, 4, 1, 4])] }
      = .error (.fatal .conversionIsNull) := by
  decide

/-! ## The status of the backend calls -/

/-- A sequence of two steps that returns normally: so did the first step. -/
theorem bind_ok {ε α β : Type} {x : Except ε α} {f : α → Except ε β} {b : β}
    (h : x >>= f = .ok b) : ∃ a, x = .ok a ∧ f a = .ok b := by
  cases x with
  | error e => cases h
  | ok a => exact ⟨a, rfl, h⟩

/-- A status check that passes: the status is `E_SUCCESS`. -/
theorem checkStatus_ok {status : Int} {u : Unit} (h : checkStatus status = .ok u) :
    status = E_SUCCESS := by
  unfold checkStatus at h
  split at h
  · assumption
  · cases h

/-- A guarded backend call followed by its status check keeps the log free of failures. -/
theorem guarded_logged {σ : Type} (c : Prop) [Decidable c] (r : Int × σ × List Int)
    (v0 v : σ × List Int) (hr : r.2.2 = r.1 :: v0.2) (hlog : ∀ e ∈ v0.2, e = E_SUCCESS)
    (h : (if c then (do checkStatus r.1; pure r.2) else pure v0)
      = (Except.ok v : Except op.Failure (σ × List Int))) :
    ∀ e ∈ v.2, e = E_SUCCESS := by
  split at h
  · obtain ⟨u, hu, h⟩ := bind_ok h
    cases h
    rw [hr]
    intro e he
    rcases List.mem_cons.1 he with rfl | he
    · exact checkStatus_ok hu
    · exact hlog e he
  · cases h
    exact hlog

/-- `create_conversions` returns normally only if each of its backend calls succeeded. -/
theorem create_conversions_logged {σ : Type} (B : Backend σ) (this d : MKLMemoryDescriptorBase)
    (s s' : σ) (log log' : List Int) (hlog : ∀ e ∈ log, e = E_SUCCESS)
    (h : this.create_conversions B.logged (s, log) = .ok (d, s', log')) :
    ∀ e ∈ log', e = E_SUCCESS := by
  unfold MKLMemoryDescriptorBase.create_conversions at h
  obtain ⟨v1, h1, h⟩ := bind_ok h
  obtain ⟨v2, h2, h⟩ := bind_ok h
  have l1 := guarded_logged _ (B.logged.dnnDelete this.convert_from_int (s, log)) _ _ rfl hlog h1
  have l2 := guarded_logged _ (B.logged.dnnDelete this.convert_to_int v1) _ _ rfl l1 h2
  split at h
  · dsimp only at h
    split at h
    · obtain ⟨_, h0, -⟩ := bind_ok h
      cases h0
    obtain ⟨u0, -, h⟩ := bind_ok h
    obtain ⟨u1, hu1, h⟩ := bind_ok h
    obtain ⟨u2, hu2, h⟩ := bind_ok h
    cases h
    intro e he
    rcases List.mem_cons.1 he with rfl | he
    · exact checkStatus_ok hu2
    · rcases List.mem_cons.1 he with rfl | he
      · exact checkStatus_ok hu1
      · exact l2 e he
  · cases h
    exact l2

/-- `create_internal_layout` returns normally only if each of its backend calls succeeded. -/
theorem create_internal_layout_logged {σ : Type} (B : Backend σ)
    (this d : MKLMemoryDescriptorBase) (primitive : Option Nat) (type : Nat) (s s' : σ)
    (log log' : List Int) (hlog : ∀ e ∈ log, e = E_SUCCESS)
    (h : this.create_internal_layout B.logged primitive type (s, log) = .ok (d, s', log')) :
    ∀ e ∈ log', e = E_SUCCESS := by
  unfold MKLMemoryDescriptorBase.create_internal_layout at h
  obtain ⟨v1, h1, h⟩ := bind_ok h
  have l1 := guarded_logged _ (B.logged.dnnLayoutDelete this.layout_int (s, log)) _ _ rfl hlog h1
  obtain ⟨u, hu, h⟩ := bind_ok h
  have l2 : ∀ e ∈ (B.logged.dnnLayoutCreateFromPrimitive primitive type v1).2.2.2,
      e = E_SUCCESS := by
    intro e he
    rcases List.mem_cons.1 he with rfl | he
    · exact checkStatus_ok hu
    · exact l1 e he
  dsimp only at h
  split at h
  · exact create_conversions_logged B _ d _ s' _ log' l2 h
  · cases h
    exact l2

/-- `create_user_layout` returns normally only if each of its backend calls succeeded. -/
theorem create_user_layout_logged {σ : Type} (B : Backend σ)
    (this d : MKLMemoryDescriptorBase) (dimension : Nat) (size strides : List Nat) (s s' : σ)
    (log log' : List Int) (hlog : ∀ e ∈ log, e = E_SUCCESS)
    (h : this.create_user_layout B.logged dimension size strides (s, log) = .ok (d, s', log')) :
    ∀ e ∈ log', e = E_SUCCESS := by
  unfold MKLMemoryDescriptorBase.create_user_layout at h
  obtain ⟨v1, h1, h⟩ := bind_ok h
  have l1 := guarded_logged _ (B.logged.dnnLayoutDelete this.layout_usr (s, log)) _ _ rfl hlog h1
  obtain ⟨u, hu, h⟩ := bind_ok h
  have l2 : ∀ e ∈ (B.logged.dnnLayoutCreate dimension size strides v1).2.2.2,
      e = E_SUCCESS := by
    intro e he
    rcases List.mem_cons.1 he with rfl | he
    · exact checkStatus_ok hu
    · exact l1 e he
  dsimp only at h
  split at h
  · exact create_conversions_logged B _ d _ s' _ log' l2 h
  · cases h
    exact l2

/-- `convert_to_prv` returns normally only if its backend call succeeded. -/
theorem convert_to_prv_logged {σ : Type} (B : Backend σ) (this : MKLMemoryDescriptorBase)
    (cpu_ptr : Option Nat) (s s' : σ) (log log' : List Int)
    (hlog : ∀ e ∈ log, e = E_SUCCESS)
    (h : this.convert_to_prv B.logged cpu_ptr (s, log) = .ok (s', log')) :
    ∀ e ∈ log', e = E_SUCCESS := by
  unfold MKLMemoryDescriptorBase.convert_to_prv at h
  dsimp only at h
  split at h
  · obtain ⟨_, h0, -⟩ := bind_ok h
    cases h0
  obtain ⟨_, -, h⟩ := bind_ok h
  split at h
  · obtain ⟨_, h0, -⟩ := bind_ok h
    cases h0
  obtain ⟨_, -, h⟩ := bind_ok h
  obtain ⟨u, hu, h⟩ := bind_ok h
  cases h
  intro e he
  rcases List.mem_cons.1 he with rfl | he
  · exact checkStatus_ok hu
  · exact hlog e he

/-- `convert_from_prv` returns normally only if its backend call succeeded. -/
theorem convert_from_prv_logged {σ : Type} (B : Backend σ) (this : MKLMemoryDescriptorBase)
    (cpu_ptr : Option Nat) (s s' : σ) (log log' : List Int)
    (hlog : ∀ e ∈ log, e = E_SUCCESS)
    (h : this.convert_from_prv B.logged cpu_ptr (s, log) = .ok (s', log')) :
    ∀ e ∈ log', e = E_SUCCESS := by
  unfold MKLMemoryDescriptorBase.convert_from_prv at h
  dsimp only at h
  split at h
  · obtain ⟨_, h0, -⟩ := bind_ok h
    cases h0
  obtain ⟨_, -, h⟩ := bind_ok h
  split at h
  · obtain ⟨_, h0, -⟩ := bind_ok h
    cases h0
  obtain ⟨_, -, h⟩ := bind_ok h
  obtain ⟨u, hu, h⟩ := bind_ok h
  cases h
  intro e he
  rcases List.mem_cons.1 he with rfl | he
  · exact checkStatus_ok hu
  · exact hlog e he

/-- The status checks of the five member functions that check them. Run on a backend that
keeps the statuses it reports, starting with no status reported, `create_conversions`,
`create_internal_layout`, `create_user_layout`, `convert_to_prv` and `convert_from_prv` return
normally only when every backend call they made reported `E_SUCCESS`. -/
theorem checked_operations_stop_on_failure {σ : Type} (B : Backend σ)
    (this : MKLMemoryDescriptorBase) (s : σ) :
    (∀ d s' log', this.create_conversions B.logged (s, []) = .ok (d, s', log') →
      ∀ e ∈ log', e = E_SUCCESS)
    ∧ (∀ primitive type d s' log',
      this.create_internal_layout B.logged primitive type (s, []) = .ok (d, s', log') →
      ∀ e ∈ log', e = E_SUCCESS)
    ∧ (∀ dimension size strides d s' log',
      this.create_user_layout B.logged dimension size strides (s, []) = .ok (d, s', log') →
      ∀ e ∈ log', e = E_SUCCESS)
    ∧ (∀ cpu_ptr s' log', this.convert_to_prv B.logged cpu_ptr (s, []) = .ok (s', log') →
      ∀ e ∈ log', e = E_SUCCESS)
    ∧ (∀ cpu_ptr s' log', this.convert_from_prv B.logged cpu_ptr (s, []) = .ok (s', log') →
      ∀ e ∈ log', e = E_SUCCESS) :=
  ⟨fun d s' log' h => create_conversions_logged B this d s s' [] log' (by simp) h,
    fun primitive type d s' log' h =>
      create_internal_layout_logged B this d primitive type s s' [] log' (by simp) h,
    fun dimension size strides d s' log' h =>
      create_user_layout_logged B this d dimension size strides s s' [] log' (by simp) h,
    fun cpu_ptr s' log' h => convert_to_prv_logged B this cpu_ptr s s' [] log' (by simp) h,
    fun cpu_ptr s' log' h => convert_from_prv_logged B this cpu_ptr s s' [] log' (by simp) h⟩

/-- C16 at a failing input. In `convert_from_other` the backend reports the status `-1` for
`dnnConversionCreate` and success afterwards: the call completes normally. It also completes
normally when `dnnConversionCreate` and `dnnExecute` succeed and `dnnDelete` reports `-1`. On
the backend that keeps the statuses, the first run returns with the statuses `-1`, `0`, `0`
(the latest first in the list). -/
theorem convert_from_other_drops_status :
    (Mkl.backend.dnnConversionCreate (some 2) (some 1) (Mkl.start [-1])).1 = -1
    ∧ MKLMemoryDescriptorBase.convert_from_other Mkl.backend ⟨none, some 1, none, none, some 3⟩
        ⟨.PRV_DESCR_MKL2017, ⟨none, some 2, none, none, some 4⟩⟩ (Mkl.start [-1])
      = .ok { Mkl.start [] with deleted := [none], executed := [none] }
    ∧ (Mkl.backend.dnnDelete (some 1) (Mkl.start [-1])).1 = -1
    ∧ MKLMemoryDescriptorBase.convert_from_other Mkl.backend ⟨none, some 1, none, none, some 3⟩
        ⟨.PRV_DESCR_MKL2017, ⟨none, some 2, none, none, some 4⟩⟩ (Mkl.start [0, 0, -1])
      = .ok { Mkl.start [] with next := 2, deleted := [some 1], executed := [some 1] }
    ∧ MKLMemoryDescriptorBase.convert_from_other Mkl.backend.logged
        ⟨none, some 1, none, none, some 3⟩
        ⟨.PRV_DESCR_MKL2017, ⟨none, some 2, none, none, some 4⟩⟩ (Mkl.start [-1], [])
      = .ok ({ Mkl.start [] with deleted := [none], executed := [none] }, [0, 0, -1]) := by
  decide

end mxnet
